import Mathlib

/-!
# SPDIF input selector firmware (`main.c`)

A shallow embedding of the selector firmware for the PIC16F628A: the global
variables and the port/register bits the program writes form a record, every C
function is a function on that record, and the interrupt routine `ISR` is a
function applied once per serviced interrupt request.

Conventions of the embedding

* Machine integers are natural numbers.  `unsigned char` increments are taken
  modulo 256; the guarded increments of `temp`, `milliseconds` and
  `signal_pulses` cannot overflow and are written as in the source.
* The busy-wait loops of `delayMs` and `delayMs_noninteruptable` make progress
  only through the interrupt routine.  A wait therefore consumes a list of
  interrupt requests supplied by the environment, one `ISR` run per request,
  and re-evaluates its loop condition after each of them.  A wait that exhausts
  the list with its condition still true has no result (`none`).
* Interrupt requests are serviced at these program points: inside the
  busy-waits, right after the `switch` has dispatched (`Env.early`), in the
  auto search also between the return of `delayMs(10)` and the test of
  `signal_pulses` (`Env.before_test`) and between that test and the final test
  of `state` (`Env.after_test`), and between two iterations of the main loop
  (rule `Reachable.isr`).  Requests are serviced only while `GIE` is set.
* The peripheral configuration registers that `init` writes and nothing reads
  (`CMCON`, `TRISA`, `TRISB`, `T0CS`, `PSA`, `PS0..2`, `T0IE`, `TMR0`) and the
  clearing of the interrupt flags are not part of the record.
* Three instrumentation fields record the executed writes: `eeprom_writes`
  counts writes to `non_volatile_active_relay`, `relay_writes` lists the values
  written to `RELAYS` (latest first), `pulse_resets` counts the assignments
  `signal_pulses = 0`.  No program statement reads them.
-/

namespace SpdifSelector

/-! ## Constants -/

/-- The macro `INVERT_RELAYS`, defined as 1. -/
def INVERT_RELAYS : Nat := 1

/-- The macro `STATE_INIT`. -/
def STATE_INIT : Nat := 0

/-- The macro `STATE_SET_RELAY`. -/
def STATE_SET_RELAY : Nat := 1

/-- The macro `STATE_AUTO_SEARCH`. -/
def STATE_AUTO_SEARCH : Nat := 2

/-- The macro `STATE_BUTTON_PRESS`. -/
def STATE_BUTTON_PRESS : Nat := 3

/-- Largest `unsigned int` of `<limits.h>` for the 16-bit `int` of the PIC16
compiler. -/
def UINT_MAX : Nat := 65535

/-- Largest `unsigned long` of `<limits.h>` (32 bits). -/
def ULONG_MAX : Nat := 4294967295

/-! ## State -/

/-- Global variables, port bits and instrumentation of the firmware. -/
structure Firmware where
  /-- The variable `unsigned char state`. -/
  state : Nat
  /-- The variable `unsigned char active_relay`. -/
  active_relay : Nat
  /-- The EEPROM cell `eeprom unsigned char non_volatile_active_relay`. -/
  non_volatile_active_relay : Nat
  /-- The variable `unsigned char signal_autosearch`. -/
  signal_autosearch : Nat
  /-- The variable `unsigned int signal_pulses`. -/
  signal_pulses : Nat
  /-- The variable `unsigned long milliseconds`. -/
  milliseconds : Nat
  /-- The relay port `PORTA`. -/
  RELAYS : Nat
  /-- The port bit `RB3`, output enable towards the DAC. -/
  I2S_RELAY : Nat
  /-- Port B change interrupt enable bit. -/
  RBIE : Nat
  /-- Global interrupt enable bit. -/
  GIE : Nat
  /-- Instrumentation: number of writes to `non_volatile_active_relay`. -/
  eeprom_writes : Nat
  /-- Instrumentation: values written to `RELAYS`, latest first. -/
  relay_writes : List Nat
  /-- Instrumentation: number of assignments `signal_pulses = 0`. -/
  pulse_resets : Nat
deriving DecidableEq, Repr

/-- One serviced interrupt request: the three flags the routine tests, the level
of `RB4` it reads, and the value its uninitialised local `i2s_state` holds on
entry. -/
structure Interrupt where
  /-- Timer 0 overflow flag. -/
  T0IF : Bool
  /-- External interrupt flag of `RB0` (the button). -/
  INTF : Bool
  /-- Port B change flag. -/
  RBIF : Bool
  /-- Level of `RB4` read by the routine. -/
  I2S_DATA : Bool
  /-- Content of the local `i2s_state` when the routine is entered. -/
  i2s_state : Bool
deriving DecidableEq, Repr

/-- What the environment supplies to one iteration of the main loop. -/
structure Env where
  /-- Requests serviced after the `switch` dispatched and before the case body. -/
  early : List Interrupt
  /-- Requests serviced, in order, while the case body busy-waits. -/
  irq : List Interrupt
  /-- Level of `RB0` read by `if (BUTTON)`. -/
  BUTTON : Bool
  /-- Number of times `while (BUTTON)` reads the button pressed before it reads
  it released. -/
  held : Nat
  /-- Value of `CS8412_LOCK` (`!RB5`) read by the auto search. -/
  CS8412_LOCK : Bool
  /-- Requests serviced in the auto search after `enable_pulse_count()` and
  `delayMs(10)` and before `signal_pulses > 10` is tested. -/
  before_test : List Interrupt := []
  /-- Requests serviced in the auto search after `signal_pulses > 10` was tested
  (or `CS8412_LOCK` read unlocked) and before `state` is tested for the last
  time. -/
  after_test : List Interrupt := []
deriving DecidableEq, Repr

/-- The state after reset, before `main` runs: the initialisers of the globals,
`p` in the EEPROM cell, interrupts disabled, port latches taken as 0. -/
def power_on (p : Nat) : Firmware :=
  { state := STATE_INIT
    active_relay := 5
    non_volatile_active_relay := p
    signal_autosearch := 0
    signal_pulses := 0
    milliseconds := 0
    RELAYS := 0
    I2S_RELAY := 0
    RBIE := 0
    GIE := 0
    eeprom_writes := 0
    relay_writes := []
    pulse_resets := 0 }

/-! ## Interrupt routine -/

/-- The routine `void interrupt ISR(void)`. -/
def ISR (i : Interrupt) (s : Firmware) : Firmware :=
  let s1 :=
    if i.T0IF then
      if s.milliseconds < ULONG_MAX then
        { s with milliseconds := s.milliseconds + 1 }
      else
        { s with milliseconds := 0 }
    else s
  let s2 :=
    if i.INTF then { s1 with state := STATE_BUTTON_PRESS } else s1
  if i.RBIF then
    if i.I2S_DATA != i.i2s_state then
      if s2.signal_pulses > 10 then
        { s2 with RBIE := 0 }
      else
        { s2 with signal_pulses := s2.signal_pulses + 1 }
    else s2
  else s2

/-- One interrupt request: the routine runs only while `GIE` is set. -/
def service (i : Interrupt) (s : Firmware) : Firmware :=
  if s.GIE ≠ 0 then ISR i s else s

/-- A sequence of interrupt requests, serviced in order. -/
def interrupts : List Interrupt → Firmware → Firmware
  | [], s => s
  | i :: rest, s => interrupts rest (service i s)

/-! ## Relay port -/

/-- The byte `(unsigned char) (1 << nr)`.  (For `nr ≥ 15` the C shift is not
defined; the embedding takes the low byte of the mathematical shift.) -/
def one_shl (nr : Nat) : Nat := (1 <<< nr) % 256

/-- The value assigned to `RELAYS` for input `nr`. -/
def relay_pattern (nr : Nat) : Nat :=
  if INVERT_RELAYS ≠ 0 then 0b11111111 ^^^ one_shl nr else one_shl nr

/-- The value assigned to `RELAYS` by "turn off all relays". -/
def relays_off : Nat :=
  if INVERT_RELAYS ≠ 0 then 0b11111111 else 0b00000000

/-- An assignment to `RELAYS`. -/
def write_RELAYS (v : Nat) (s : Firmware) : Firmware :=
  { s with RELAYS := v, relay_writes := v :: s.relay_writes }

/-- Relay line `k` (port bit `k`, `k < 5`) is driven active by port value `v`:
active low when `INVERT_RELAYS` is set. -/
def relay_active (v k : Nat) : Bool :=
  if INVERT_RELAYS ≠ 0 then !v.testBit k else v.testBit k

/-- Number of active lines among the five relay lines. -/
def active_lines (v : Nat) : Nat :=
  ((List.range 5).filter (fun k => relay_active v k)).length

/-! ## Functions of `main.c` -/

/-- The macro `NEXT_STATE` (`state++` on an `unsigned char`). -/
def NEXT_STATE (s : Firmware) : Firmware :=
  { s with state := (s.state + 1) % 256 }

/-- The function `void set_relay(unsigned char nr)`. -/
def set_relay (nr : Nat) (s : Firmware) : Firmware :=
  if nr ≠ s.non_volatile_active_relay then
    let s1 := { s with non_volatile_active_relay := nr,
                       eeprom_writes := s.eeprom_writes + 1 }
    let s2 := write_RELAYS (relay_pattern nr) s1
    { s2 with signal_pulses := 0, pulse_resets := s2.pulse_resets + 1 }
  else s

/-- The function `void next_input(void)`. -/
def next_input (s : Firmware) : Firmware :=
  if s.active_relay ≥ 4 then
    { s with active_relay := 0 }
  else
    { s with active_relay := (s.active_relay + 1) % 256 }

/-- The function `void enable_autosearch(void)`. -/
def enable_autosearch (s : Firmware) : Firmware :=
  let s1 := { s with signal_autosearch := 1 }
  let s2 := next_input s1
  if s2.state ≠ STATE_BUTTON_PRESS then
    { s2 with state := STATE_SET_RELAY }
  else s2

/-- The function `void disable_autosearch(void)`. -/
def disable_autosearch (s : Firmware) : Firmware :=
  { s with RBIE := 0, signal_autosearch := 0 }

/-- The function `void enable_pulse_count(void)`. -/
def enable_pulse_count (s : Firmware) : Firmware :=
  { s with RBIE := 1, signal_pulses := 0, pulse_resets := s.pulse_resets + 1 }

/-- The loop `while ((milliseconds < ms) && (state != STATE_BUTTON_PRESS))` of
`delayMs`: returns the state on exit and the requests not yet serviced. -/
def delayMs_loop (ms : Nat) : List Interrupt → Firmware → Option (Firmware × List Interrupt)
  | [], s =>
    if s.milliseconds < ms ∧ s.state ≠ STATE_BUTTON_PRESS then none
    else some (s, [])
  | i :: rest, s =>
    if s.milliseconds < ms ∧ s.state ≠ STATE_BUTTON_PRESS then
      delayMs_loop ms rest (service i s)
    else some (s, i :: rest)

/-- The function `void delayMs(unsigned int ms)`. -/
def delayMs (ms : Nat) (irq : List Interrupt) (s : Firmware) :
    Option (Firmware × List Interrupt) :=
  delayMs_loop ms irq { s with milliseconds := 0 }

/-- The loop `while ((milliseconds < ms))` of `delayMs_noninteruptable`. -/
def delayMs_noninteruptable_loop (ms : Nat) :
    List Interrupt → Firmware → Option (Firmware × List Interrupt)
  | [], s =>
    if s.milliseconds < ms then none else some (s, [])
  | i :: rest, s =>
    if s.milliseconds < ms then
      delayMs_noninteruptable_loop ms rest (service i s)
    else some (s, i :: rest)

/-- The function `void delayMs_noninteruptable(unsigned int ms)`. -/
def delayMs_noninteruptable (ms : Nat) (irq : List Interrupt) (s : Firmware) :
    Option (Firmware × List Interrupt) :=
  delayMs_noninteruptable_loop ms irq { s with milliseconds := 0 }

/-- The function `void init(void)`. -/
def init (irq : List Interrupt) (s : Firmware) : Option (Firmware × List Interrupt) :=
  let s1 := write_RELAYS relays_off s
  let s2 := disable_autosearch s1
  let s3 := { s2 with GIE := 1 }
  let s4 := { s3 with active_relay := s3.non_volatile_active_relay }
  let s5 := write_RELAYS (relay_pattern s4.active_relay) s4
  match delayMs_noninteruptable 1000 irq s5 with
  | none => none
  | some (s6, rest) => some ({ s6 with I2S_RELAY := 1 }, rest)

/-- The loop `while (BUTTON) { delayMs_noninteruptable(5); if (temp < UINT_MAX)
temp++; }` for a button that reads pressed `held` times and released then.
Returns the state, the final `temp` and the requests not yet serviced. -/
def button_loop : Nat → Nat → List Interrupt → Firmware →
    Option (Firmware × Nat × List Interrupt)
  | 0, temp, irq, s => some (s, temp, irq)
  | held + 1, temp, irq, s =>
    match delayMs_noninteruptable 5 irq s with
    | none => none
    | some (s1, rest) =>
      button_loop held (if temp < UINT_MAX then temp + 1 else temp) rest s1

/-! ## The cases of the main loop -/

/-- The body of `case STATE_INIT`. -/
def case_INIT (e : Env) (s : Firmware) : Option Firmware :=
  let s0 := interrupts e.early s
  match init e.irq s0 with
  | none => none
  | some (s1, _) => some (NEXT_STATE s1)

/-- The body of `case STATE_SET_RELAY`. -/
def case_SET_RELAY (e : Env) (s : Firmware) : Option Firmware :=
  let s0 := interrupts e.early s
  let s1 := set_relay s0.active_relay s0
  if s1.state ≠ STATE_BUTTON_PRESS then some (NEXT_STATE s1) else some s1

/-- The statement `if (signal_pulses > 10) { disable_autosearch();
I2S_RELAY = 1; } else next_input();` of the auto search. -/
def confirm_or_next (s : Firmware) : Firmware :=
  if s.signal_pulses > 10 then
    let s1 := disable_autosearch s
    { s1 with I2S_RELAY := 1 }
  else
    next_input s

/-- The statement `if (state != STATE_BUTTON_PRESS) state = STATE_SET_RELAY;`
that ends the armed auto search. -/
def leave_search (s : Firmware) : Firmware :=
  if s.state ≠ STATE_BUTTON_PRESS then { s with state := STATE_SET_RELAY } else s

/-- The body of `if (CS8412_LOCK) ... else next_input();` in the auto search;
`before_test` are the requests serviced between the return of `delayMs(10)` and
the test of `signal_pulses`. -/
def search_input (lock : Bool) (irq before_test : List Interrupt) (s : Firmware) :
    Option Firmware :=
  if lock then
    let s1 := enable_pulse_count s
    match delayMs 10 irq s1 with
    | none => none
    | some (s2, _) => some (confirm_or_next (interrupts before_test s2))
  else
    some (next_input s)

/-- The body of `case STATE_AUTO_SEARCH`. -/
def case_AUTO_SEARCH (e : Env) (s : Firmware) : Option Firmware :=
  let s0 := interrupts e.early s
  if s0.signal_autosearch ≠ 0 then
    match delayMs 100 e.irq s0 with
    | none => none
    | some (s1, rest) =>
      match search_input e.CS8412_LOCK rest e.before_test s1 with
      | none => none
      | some s2 => some (leave_search (interrupts e.after_test s2))
  else
    if s0.state ≠ STATE_BUTTON_PRESS then some (NEXT_STATE s0) else some s0

/-- The body of `case STATE_BUTTON_PRESS`. -/
def case_BUTTON_PRESS (e : Env) (s : Firmware) : Option Firmware :=
  let s0 := interrupts e.early s
  if e.BUTTON then
    let s1 := { s0 with I2S_RELAY := 0 }
    match button_loop e.held 0 e.irq s1 with
    | none => none
    | some (s2, temp, _) =>
      if temp < 100 then
        let s3 := next_input s2
        let s4 := disable_autosearch s3
        let s5 := { s4 with I2S_RELAY := 1 }
        some (NEXT_STATE s5)
      else
        some (enable_autosearch s2)
  else
    some (NEXT_STATE s0)

/-- The `default:` case. -/
def case_default (e : Env) (s : Firmware) : Option Firmware :=
  let s0 := interrupts e.early s
  some { s0 with state := STATE_SET_RELAY }

/-- One iteration of `while (1) { switch (state) ... }`. -/
def main_step (e : Env) (s : Firmware) : Option Firmware :=
  if s.state = STATE_INIT then case_INIT e s
  else if s.state = STATE_SET_RELAY then case_SET_RELAY e s
  else if s.state = STATE_AUTO_SEARCH then case_AUTO_SEARCH e s
  else if s.state = STATE_BUTTON_PRESS then case_BUTTON_PRESS e s
  else case_default e s

/-- States the firmware reaches from reset with `p` in the EEPROM cell: by
iterations of the main loop and by interrupt requests serviced between two
iterations. -/
inductive Reachable (p : Nat) : Firmware → Prop
  | power_on : Reachable p (power_on p)
  | main (e : Env) (s s1 : Firmware) :
      Reachable p s → main_step e s = some s1 → Reachable p s1
  | isr (i : Interrupt) (s : Firmware) :
      Reachable p s → Reachable p (service i s)

/-- Number of timer ticks in a list of interrupt requests. -/
def ticks (irq : List Interrupt) : Nat :=
  (irq.filter (fun i => i.T0IF)).length

/-- A timer tick with no other flag set. -/
def tick : Interrupt :=
  { T0IF := true, INTF := false, RBIF := false, I2S_DATA := false, i2s_state := false }

/-- A request in which only the button flag is set. -/
def button_irq : Interrupt :=
  { T0IF := false, INTF := true, RBIF := false, I2S_DATA := false, i2s_state := false }

/-- The fields the interrupt routine never writes agree in `s` and `t`. -/
def Frame (s t : Firmware) : Prop :=
  t.active_relay = s.active_relay ∧
  t.non_volatile_active_relay = s.non_volatile_active_relay ∧
  t.signal_autosearch = s.signal_autosearch ∧
  t.RELAYS = s.RELAYS ∧
  t.I2S_RELAY = s.I2S_RELAY ∧
  t.GIE = s.GIE ∧
  t.eeprom_writes = s.eeprom_writes ∧
  t.relay_writes = s.relay_writes ∧
  t.pulse_resets = s.pulse_resets

/-- No request of the list has the button flag set. -/
def no_button (irq : List Interrupt) : Prop :=
  ∀ i ∈ irq, i.INTF = false

instance no_button_decidable (irq : List Interrupt) : Decidable (no_button irq) := by
  unfold no_button
  infer_instance

/-- The condition that holds at every main-loop boundary once `init` has run:
`state` is one of 1..4, `active_relay` is an input index and interrupts are
enabled. -/
def Booted (s : Firmware) : Prop :=
  1 ≤ s.state ∧ s.state ≤ 4 ∧ s.active_relay ≤ 4 ∧ s.GIE = 1

/-- The EEPROM cell, the relay port and their write records agree in `s` and
`t`. -/
def RelayFrame (s t : Firmware) : Prop :=
  t.non_volatile_active_relay = s.non_volatile_active_relay ∧
  t.RELAYS = s.RELAYS ∧
  t.relay_writes = s.relay_writes ∧
  t.eeprom_writes = s.eeprom_writes

/-- The state the `STATE_INIT` iteration produces from `power_on 2` when the
boot delay sees 1000 timer ticks and nothing else. -/
def booted_2 : Firmware :=
  { state := 1
    active_relay := 2
    non_volatile_active_relay := 2
    signal_autosearch := 0
    signal_pulses := 0
    milliseconds := 1000
    RELAYS := 0b11111011
    I2S_RELAY := 1
    RBIE := 0
    GIE := 1
    eeprom_writes := 0
    relay_writes := [0b11111011, 0b11111111]
    pulse_resets := 0 }

/-- An environment with the given busy-wait requests, the button released and
the receiver unlocked. -/
def quiet (irq : List Interrupt) : Env :=
  { early := [], irq := irq, BUTTON := false, held := 0, CS8412_LOCK := false }

/-- An armed auto search about to run: `booted_2` with `state` set to
`STATE_AUTO_SEARCH`, `signal_autosearch` set and the output enable low. -/
def searching_2 : Firmware :=
  { booted_2 with state := STATE_AUTO_SEARCH, signal_autosearch := 1, I2S_RELAY := 0 }

/-- Requests of a wait cancelled after 3 ticks: three timer ticks, the button,
and one more tick that the wait no longer services. -/
def cancel_after_3 : List Interrupt := [tick, tick, tick, button_irq, tick]

/-- An environment whose busy-wait requests are `cancel_after_3`. -/
def cancel_env : Env :=
  { early := [], irq := cancel_after_3, BUTTON := true, held := 0, CS8412_LOCK := false }

/-- The button read pressed on entry and held for `n` debounce quanta, with the
`5 * n` timer ticks the quanta need and no other request. -/
def press (n : Nat) : Env :=
  { early := [], irq := List.replicate (5 * n) tick, BUTTON := true, held := n,
    CS8412_LOCK := false }

/-- The state `booted_2` with `state` set to `STATE_BUTTON_PRESS`. -/
def pressed_2 : Firmware :=
  { booted_2 with state := STATE_BUTTON_PRESS }

/-- The state the `STATE_INIT` iteration produces from `power_on 2` when a
button request is serviced during the boot delay. -/
def booted_2_button : Firmware :=
  { booted_2 with state := 4 }

/-- The result of a short press of 50 quanta in `pressed_2`. -/
def after_short_press : Firmware :=
  { booted_2 with state := 4, active_relay := 3, milliseconds := 5 }

/-- The result of a long press of 120 quanta in `pressed_2`. -/
def after_long_press : Firmware :=
  { booted_2 with state := 3, active_relay := 3, milliseconds := 5,
                  signal_autosearch := 1, I2S_RELAY := 0 }

/-- The result of the `STATE_BUTTON_PRESS` case in `pressed_2` when the button
reads released. -/
def after_no_press : Firmware :=
  { booted_2 with state := 4 }

/-- A port B change request at which the level of `RB4` differs from the
content of `i2s_state`, with no other flag set. -/
def edge : Interrupt :=
  { T0IF := false, INTF := false, RBIF := true, I2S_DATA := true, i2s_state := false }

/-- The state in which an armed, locked auto search evaluates
`if (signal_pulses > 10)`: after `delayMs(100)`, `enable_pulse_count()`,
`delayMs(10)` and the requests serviced before the test. -/
def sample_window (e : Env) (s : Firmware) : Option Firmware :=
  match delayMs 100 e.irq (interrupts e.early s) with
  | none => none
  | some (s1, rest) =>
    match delayMs 10 rest (enable_pulse_count s1) with
    | none => none
    | some (s2, _) => some (interrupts e.before_test s2)

/-- A locked receiver and a sampling window that sees 15 level changes: 100
ticks of settle time, 15 port B change requests, 10 ticks of window. -/
def locked_15_edges : Env :=
  { early := [],
    irq := List.replicate 100 tick ++ (List.replicate 15 edge ++ List.replicate 10 tick),
    BUTTON := false, held := 0, CS8412_LOCK := true }

/-- A locked receiver and a sampling window that sees no level change. -/
def locked_no_edges : Env :=
  { early := [], irq := List.replicate 110 tick, BUTTON := false, held := 0,
    CS8412_LOCK := true }

/-- The state in which `searching_2` tests the pulse count after the window of
`locked_15_edges`: the count stopped at 11 and `RBIE` was cleared. -/
def window_15_edges : Firmware :=
  { searching_2 with signal_pulses := 11, milliseconds := 10, RBIE := 0, pulse_resets := 1 }

/-- The first `k` rounds of the main loop from `s`, round `j` being one
iteration in environment `(envs j).1` followed by one in `(envs j).2`. -/
def search_rounds (envs : Nat → Env × Env) : Nat → Firmware → Option Firmware
  | 0, s => some s
  | k + 1, s =>
    match search_rounds envs k s with
    | none => none
    | some t =>
      match main_step (envs k).1 t with
      | none => none
      | some u => main_step (envs k).2 u

/-- Rounds in which the receiver is never locked and nothing but the timer
requests service: 100 ticks for the auto search, none for `set_relay`. -/
def unlocked_rounds : Nat → Env × Env :=
  fun _ => (quiet (List.replicate 100 tick), quiet [])

/-- The state `after_short_press` once the `default` case has set `state` to
`STATE_SET_RELAY`: input 3 is active, the EEPROM cell still holds 2. -/
def selecting_3 : Firmware :=
  { after_short_press with state := STATE_SET_RELAY }

/-- The result of the `STATE_SET_RELAY` iteration in `selecting_3`. -/
def stored_3 : Firmware :=
  { selecting_3 with state := STATE_AUTO_SEARCH, non_volatile_active_relay := 3,
                     RELAYS := 0b11110111, eeprom_writes := 1,
                     relay_writes := [0b11110111, 0b11111011, 0b11111111],
                     pulse_resets := 1 }

/-- The state `booted_2` with the clock at the largest `unsigned long`. -/
def clock_at_max : Firmware :=
  { booted_2 with milliseconds := ULONG_MAX }

/-- The state `booted_2` with an unrecognised value in `state`. -/
def lost_2 : Firmware :=
  { booted_2 with state := 200 }

/-- The environment `locked_no_edges` with 12 level changes serviced after the
test of the pulse count, before the iteration ends. -/
def locked_late_edges : Env :=
  { locked_no_edges with after_test := List.replicate 12 edge }

/-- The result of the iteration of `searching_2` in `locked_late_edges`: the
search moved on to input 3, and the late level changes ran the count to 11 and
cleared `RBIE`. -/
def after_late_edges : Firmware :=
  { searching_2 with state := STATE_SET_RELAY, active_relay := 3, milliseconds := 10,
                     signal_pulses := 11, RBIE := 0, pulse_resets := 1 }

lemma Frame_refl (s : Firmware) : Frame s s := by
  simp [Frame]

lemma Frame_trans {s t u : Firmware} (h1 : Frame s t) (h2 : Frame t u) : Frame s u := by
  obtain ⟨a1, a2, a3, a4, a5, a6, a7, a8, a9⟩ := h1
  obtain ⟨b1, b2, b3, b4, b5, b6, b7, b8, b9⟩ := h2
  exact ⟨b1.trans a1, b2.trans a2, b3.trans a3, b4.trans a4, b5.trans a5, b6.trans a6,
    b7.trans a7, b8.trans a8, b9.trans a9⟩

lemma ISR_frame (i : Interrupt) (s : Firmware) : Frame s (ISR i s) := by
  simp only [Frame, ISR]
  split_ifs <;> simp

lemma service_frame (i : Interrupt) (s : Firmware) : Frame s (service i s) := by
  unfold service
  split_ifs
  · exact ISR_frame i s
  · exact Frame_refl s

lemma interrupts_frame (irq : List Interrupt) (s : Firmware) :
    Frame s (interrupts irq s) := by
  induction irq generalizing s with
  | nil => exact Frame_refl s
  | cons i rest ih => exact Frame_trans (service_frame i s) (ih (service i s))

lemma ISR_state (i : Interrupt) (s : Firmware) :
    (ISR i s).state = if i.INTF then STATE_BUTTON_PRESS else s.state := by
  simp only [ISR]
  split_ifs <;> simp

lemma service_state (i : Interrupt) (s : Firmware) :
    (service i s).state = s.state ∨ (service i s).state = STATE_BUTTON_PRESS := by
  unfold service
  split_ifs
  · rw [ISR_state]
    split_ifs <;> simp
  · exact Or.inl rfl

lemma interrupts_state (irq : List Interrupt) (s : Firmware) :
    (interrupts irq s).state = s.state ∨ (interrupts irq s).state = STATE_BUTTON_PRESS := by
  induction irq generalizing s with
  | nil => exact Or.inl rfl
  | cons i rest ih =>
    rcases ih (service i s) with h | h
    · rcases service_state i s with h1 | h1
      · exact Or.inl (h.trans h1)
      · exact Or.inr (h.trans h1)
    · exact Or.inr h

lemma interrupts_state_button (irq : List Interrupt) (s : Firmware)
    (h : s.state = STATE_BUTTON_PRESS) :
    (interrupts irq s).state = STATE_BUTTON_PRESS := by
  rcases interrupts_state irq s with h1 | h1
  · exact h1.trans h
  · exact h1

lemma ISR_milliseconds (i : Interrupt) (s : Firmware) :
    (ISR i s).milliseconds =
      if i.T0IF then (if s.milliseconds < ULONG_MAX then s.milliseconds + 1 else 0)
      else s.milliseconds := by
  simp only [ISR]
  split_ifs <;> simp

lemma ISR_signal_pulses (i : Interrupt) (s : Firmware) :
    (ISR i s).signal_pulses =
      if i.RBIF then
        if i.I2S_DATA != i.i2s_state then
          if s.signal_pulses > 10 then s.signal_pulses else s.signal_pulses + 1
        else s.signal_pulses
      else s.signal_pulses := by
  simp only [ISR]
  split_ifs <;> simp_all

lemma ISR_RBIE (i : Interrupt) (s : Firmware) :
    (ISR i s).RBIE =
      if i.RBIF then
        if i.I2S_DATA != i.i2s_state then
          if s.signal_pulses > 10 then 0 else s.RBIE
        else s.RBIE
      else s.RBIE := by
  simp only [ISR]
  split_ifs <;> simp_all

lemma service_milliseconds (i : Interrupt) (s : Firmware) (hg : s.GIE ≠ 0)
    (hm : s.milliseconds < ULONG_MAX) :
    (service i s).milliseconds = s.milliseconds + (if i.T0IF then 1 else 0) := by
  unfold service
  rw [if_pos hg, ISR_milliseconds]
  split_ifs <;> simp

lemma service_GIE (i : Interrupt) (s : Firmware) : (service i s).GIE = s.GIE :=
  (service_frame i s).2.2.2.2.2.1

lemma ticks_nil : ticks [] = 0 := rfl

lemma ticks_cons (i : Interrupt) (rest : List Interrupt) :
    ticks (i :: rest) = (if i.T0IF then 1 else 0) + ticks rest := by
  unfold ticks
  rw [List.filter_cons]
  split_ifs <;> simp [Nat.add_comm]

lemma ticks_append (a b : List Interrupt) : ticks (a ++ b) = ticks a + ticks b := by
  unfold ticks
  rw [List.filter_append, List.length_append]

lemma ticks_replicate_tick (n : Nat) : ticks (List.replicate n tick) = n := by
  induction n with
  | zero => rfl
  | succ k ih => rw [List.replicate_succ, ticks_cons, ih]; simp [tick, Nat.add_comm]

/-! ## The busy-waits -/

lemma delayMs_noninteruptable_loop_frame (ms : Nat) (irq : List Interrupt) (s t : Firmware)
    (r : List Interrupt) (h : delayMs_noninteruptable_loop ms irq s = some (t, r)) :
    Frame s t ∧ (t.state = s.state ∨ t.state = STATE_BUTTON_PRESS) := by
  induction irq generalizing s with
  | nil =>
    unfold delayMs_noninteruptable_loop at h
    split_ifs at h
    simp only [Option.some.injEq, Prod.mk.injEq] at h
    rw [← h.1]
    exact ⟨Frame_refl s, Or.inl rfl⟩
  | cons i rest ih =>
    unfold delayMs_noninteruptable_loop at h
    split_ifs at h
    · obtain ⟨hf, hs⟩ := ih (service i s) h
      refine ⟨Frame_trans (service_frame i s) hf, ?_⟩
      rcases hs with hs | hs
      · rcases service_state i s with h1 | h1
        · exact Or.inl (hs.trans h1)
        · exact Or.inr (hs.trans h1)
      · exact Or.inr hs
    · simp only [Option.some.injEq, Prod.mk.injEq] at h
      rw [← h.1]
      exact ⟨Frame_refl s, Or.inl rfl⟩

lemma delayMs_noninteruptable_loop_total (ms : Nat) (hms : ms ≤ ULONG_MAX)
    (irq : List Interrupt) (s : Firmware) (hg : s.GIE ≠ 0)
    (hle : s.milliseconds ≤ ms) (ht : ms ≤ s.milliseconds + ticks irq) :
    ∃ t r, delayMs_noninteruptable_loop ms irq s = some (t, r) ∧
      t.milliseconds = ms ∧ ticks r + ms = s.milliseconds + ticks irq := by
  induction irq generalizing s with
  | nil =>
    rw [ticks_nil] at ht
    refine ⟨s, [], ?_, by omega, by rw [ticks_nil]; omega⟩
    unfold delayMs_noninteruptable_loop
    rw [if_neg (by omega)]
  | cons i rest ih =>
    unfold delayMs_noninteruptable_loop
    by_cases hc : s.milliseconds < ms
    · rw [if_pos hc]
      have hm := service_milliseconds i s hg (by omega)
      rw [ticks_cons] at ht
      have hg1 : (service i s).GIE ≠ 0 := by rw [service_GIE]; exact hg
      have hle1 : (service i s).milliseconds ≤ ms := by
        rw [hm]; split_ifs <;> omega
      obtain ⟨t, r, h1, h2, h3⟩ := ih (service i s) hg1 hle1 (by rw [hm]; omega)
      refine ⟨t, r, h1, h2, ?_⟩
      rw [h3, hm, ticks_cons]
      omega
    · rw [if_neg hc]
      exact ⟨s, i :: rest, rfl, by omega, by omega⟩

lemma delayMs_noninteruptable_total (ms : Nat) (hms : ms ≤ ULONG_MAX)
    (irq : List Interrupt) (s : Firmware) (hg : s.GIE ≠ 0) (ht : ms ≤ ticks irq) :
    ∃ t r, delayMs_noninteruptable ms irq s = some (t, r) ∧
      t.milliseconds = ms ∧ ticks r + ms = ticks irq ∧
      Frame s t ∧ (t.state = s.state ∨ t.state = STATE_BUTTON_PRESS) := by
  unfold delayMs_noninteruptable
  obtain ⟨t, r, h1, h2, h3⟩ :=
    delayMs_noninteruptable_loop_total ms hms irq { s with milliseconds := 0 } hg
      (Nat.zero_le ms) (by simpa using ht)
  obtain ⟨hf, hs⟩ := delayMs_noninteruptable_loop_frame ms irq _ t r h1
  exact ⟨t, r, h1, h2, by simpa using h3, hf, hs⟩

lemma delayMs_loop_frame (ms : Nat) (irq : List Interrupt) (s t : Firmware)
    (r : List Interrupt) (h : delayMs_loop ms irq s = some (t, r)) :
    Frame s t ∧ (t.state = s.state ∨ t.state = STATE_BUTTON_PRESS) := by
  induction irq generalizing s with
  | nil =>
    unfold delayMs_loop at h
    split_ifs at h
    simp only [Option.some.injEq, Prod.mk.injEq] at h
    rw [← h.1]
    exact ⟨Frame_refl s, Or.inl rfl⟩
  | cons i rest ih =>
    unfold delayMs_loop at h
    split_ifs at h
    · obtain ⟨hf, hs⟩ := ih (service i s) h
      refine ⟨Frame_trans (service_frame i s) hf, ?_⟩
      rcases hs with hs | hs
      · rcases service_state i s with h1 | h1
        · exact Or.inl (hs.trans h1)
        · exact Or.inr (hs.trans h1)
      · exact Or.inr hs
    · simp only [Option.some.injEq, Prod.mk.injEq] at h
      rw [← h.1]
      exact ⟨Frame_refl s, Or.inl rfl⟩

lemma delayMs_loop_total (ms : Nat) (hms : ms ≤ ULONG_MAX)
    (irq : List Interrupt) (s : Firmware) (hg : s.GIE ≠ 0)
    (hle : s.milliseconds ≤ ms) (ht : ms ≤ s.milliseconds + ticks irq) :
    ∃ t r, delayMs_loop ms irq s = some (t, r) ∧
      t.milliseconds + ticks r = s.milliseconds + ticks irq ∧
      (t.milliseconds = ms ∨ t.state = STATE_BUTTON_PRESS) := by
  induction irq generalizing s with
  | nil =>
    rw [ticks_nil] at ht
    refine ⟨s, [], ?_, rfl, Or.inl (by omega)⟩
    unfold delayMs_loop
    rw [if_neg (by omega)]
  | cons i rest ih =>
    unfold delayMs_loop
    by_cases hc : s.milliseconds < ms ∧ s.state ≠ STATE_BUTTON_PRESS
    · rw [if_pos hc]
      have hm := service_milliseconds i s hg (by omega)
      rw [ticks_cons] at ht
      have hg1 : (service i s).GIE ≠ 0 := by rw [service_GIE]; exact hg
      have hle1 : (service i s).milliseconds ≤ ms := by
        rw [hm]; split_ifs <;> omega
      obtain ⟨t, r, h1, h2, h3⟩ := ih (service i s) hg1 hle1 (by rw [hm]; omega)
      refine ⟨t, r, h1, ?_, h3⟩
      rw [h2, hm, ticks_cons]
      omega
    · rw [if_neg hc]
      refine ⟨s, i :: rest, rfl, rfl, ?_⟩
      by_cases h3 : s.state = STATE_BUTTON_PRESS
      · exact Or.inr h3
      · exact Or.inl (by
          have : ¬ s.milliseconds < ms := fun h => hc ⟨h, h3⟩
          omega)

lemma delayMs_total (ms : Nat) (hms : ms ≤ ULONG_MAX)
    (irq : List Interrupt) (s : Firmware) (hg : s.GIE ≠ 0) (ht : ms ≤ ticks irq) :
    ∃ t r, delayMs ms irq s = some (t, r) ∧
      t.milliseconds + ticks r = ticks irq ∧
      (t.milliseconds = ms ∨ t.state = STATE_BUTTON_PRESS) ∧
      Frame s t ∧ (t.state = s.state ∨ t.state = STATE_BUTTON_PRESS) := by
  unfold delayMs
  obtain ⟨t, r, h1, h2, h3⟩ :=
    delayMs_loop_total ms hms irq { s with milliseconds := 0 } hg
      (Nat.zero_le ms) (by simpa using ht)
  obtain ⟨hf, hs⟩ := delayMs_loop_frame ms irq _ t r h1
  exact ⟨t, r, h1, by simpa using h2, h3, hf, hs⟩

lemma button_loop_frame (held : Nat) (temp : Nat) (irq : List Interrupt) (s t : Firmware)
    (temp1 : Nat) (r : List Interrupt)
    (h : button_loop held temp irq s = some (t, temp1, r)) :
    Frame s t ∧ (t.state = s.state ∨ t.state = STATE_BUTTON_PRESS) := by
  induction held generalizing temp irq s with
  | zero =>
    unfold button_loop at h
    simp only [Option.some.injEq, Prod.mk.injEq] at h
    rw [← h.1]
    exact ⟨Frame_refl s, Or.inl rfl⟩
  | succ n ih =>
    unfold button_loop at h
    cases hw : delayMs_noninteruptable 5 irq s with
    | none => rw [hw] at h; simp at h
    | some q =>
      obtain ⟨s1, rest⟩ := q
      rw [hw] at h
      obtain ⟨hf1, hs1⟩ := delayMs_noninteruptable_loop_frame 5 irq _ s1 rest hw
      obtain ⟨hf2, hs2⟩ := ih _ rest s1 h
      refine ⟨Frame_trans hf1 hf2, ?_⟩
      rcases hs2 with hs2 | hs2
      · rcases hs1 with hs1 | hs1
        · exact Or.inl (hs2.trans hs1)
        · exact Or.inr (hs2.trans hs1)
      · exact Or.inr hs2

/-! ## Elementary facts about the functions -/

lemma interrupts_GIE_zero (irq : List Interrupt) (s : Firmware) (h : s.GIE = 0) :
    interrupts irq s = s := by
  induction irq with
  | nil => rfl
  | cons i rest ih =>
    have : service i s = s := by unfold service; simp [h]
    simp only [interrupts, this, ih]

@[simp] lemma next_input_state (s : Firmware) : (next_input s).state = s.state := by
  unfold next_input; split_ifs <;> rfl

lemma next_input_le (s : Firmware) : (next_input s).active_relay ≤ 4 := by
  unfold next_input
  split_ifs with h
  · simp
  · simp only [ge_iff_le, not_le] at h
    show (s.active_relay + 1) % 256 ≤ 4
    omega

lemma next_input_eq (s : Firmware) (h : s.active_relay ≤ 4) :
    (next_input s).active_relay = (s.active_relay + 1) % 5 := by
  unfold next_input
  split_ifs with h1
  · have : s.active_relay = 4 := by omega
    simp [this]
  · simp only [ge_iff_le, not_le] at h1
    show (s.active_relay + 1) % 256 = (s.active_relay + 1) % 5
    omega

@[simp] lemma set_relay_state (nr : Nat) (s : Firmware) :
    (set_relay nr s).state = s.state := by
  unfold set_relay write_RELAYS; split_ifs <;> rfl

@[simp] lemma set_relay_active_relay (nr : Nat) (s : Firmware) :
    (set_relay nr s).active_relay = s.active_relay := by
  unfold set_relay write_RELAYS; split_ifs <;> rfl

/-! ## The invariant of the main loop -/

@[simp] lemma set_relay_GIE (nr : Nat) (s : Firmware) : (set_relay nr s).GIE = s.GIE := by
  unfold set_relay write_RELAYS; split_ifs <;> rfl

@[simp] lemma next_input_GIE (s : Firmware) : (next_input s).GIE = s.GIE := by
  unfold next_input; split_ifs <;> rfl

lemma case_SET_RELAY_booted (e : Env) (s t : Firmware) (hb : Booted s)
    (hst : s.state = STATE_SET_RELAY) (h : case_SET_RELAY e s = some t) : Booted t := by
  obtain ⟨-, -, h3, h4⟩ := hb
  obtain ⟨f1, -, -, -, -, f6, -⟩ := interrupts_frame e.early s
  have hs := interrupts_state e.early s
  unfold case_SET_RELAY at h
  simp only [set_relay_state] at h
  unfold Booted
  simp only [STATE_SET_RELAY, STATE_BUTTON_PRESS] at *
  split_ifs at h with hc <;> simp only [Option.some.injEq] at h <;> subst h <;>
    simp only [NEXT_STATE, set_relay_state, set_relay_active_relay, set_relay_GIE] <;>
    omega

@[simp] lemma set_relay_signal_autosearch (nr : Nat) (s : Firmware) :
    (set_relay nr s).signal_autosearch = s.signal_autosearch := by
  unfold set_relay write_RELAYS; split_ifs <;> rfl

@[simp] lemma set_relay_I2S_RELAY (nr : Nat) (s : Firmware) :
    (set_relay nr s).I2S_RELAY = s.I2S_RELAY := by
  unfold set_relay write_RELAYS; split_ifs <;> rfl

@[simp] lemma next_input_signal_autosearch (s : Firmware) :
    (next_input s).signal_autosearch = s.signal_autosearch := by
  unfold next_input; split_ifs <;> rfl

@[simp] lemma next_input_I2S_RELAY (s : Firmware) :
    (next_input s).I2S_RELAY = s.I2S_RELAY := by
  unfold next_input; split_ifs <;> rfl

/-! ## The statements of the auto search -/

@[simp] lemma confirm_or_next_state (s : Firmware) : (confirm_or_next s).state = s.state := by
  unfold confirm_or_next
  split_ifs
  · rfl
  · exact next_input_state s

@[simp] lemma confirm_or_next_GIE (s : Firmware) : (confirm_or_next s).GIE = s.GIE := by
  unfold confirm_or_next
  split_ifs
  · rfl
  · exact next_input_GIE s

lemma confirm_or_next_le (s : Firmware) (h : s.active_relay ≤ 4) :
    (confirm_or_next s).active_relay ≤ 4 := by
  unfold confirm_or_next
  split_ifs
  · exact h
  · exact next_input_le s

lemma confirm_or_next_pos (s : Firmware) (h : s.signal_pulses > 10) :
    confirm_or_next s = { disable_autosearch s with I2S_RELAY := 1 } := by
  unfold confirm_or_next
  rw [if_pos h]

lemma confirm_or_next_neg (s : Firmware) (h : ¬ s.signal_pulses > 10) :
    confirm_or_next s = next_input s := by
  unfold confirm_or_next
  rw [if_neg h]

lemma leave_search_state (s : Firmware) :
    (leave_search s).state =
      if s.state ≠ STATE_BUTTON_PRESS then STATE_SET_RELAY else STATE_BUTTON_PRESS := by
  unfold leave_search
  split_ifs with h
  · rfl
  · exact not_not.mp h

/-- The statement that ends the auto search writes `state` only. -/
lemma leave_search_fields (s : Firmware) :
    Frame s (leave_search s) ∧ (leave_search s).RBIE = s.RBIE ∧
    (leave_search s).signal_pulses = s.signal_pulses ∧
    (leave_search s).milliseconds = s.milliseconds := by
  unfold leave_search Frame
  split_ifs <;> simp

/-- What a result of `search_input` consists of. -/
lemma search_input_some (lock : Bool) (irq bt : List Interrupt) (s t : Firmware)
    (h : search_input lock irq bt s = some t) :
    (lock = true ∧ ∃ s2 r, delayMs 10 irq (enable_pulse_count s) = some (s2, r) ∧
      t = confirm_or_next (interrupts bt s2)) ∨
    (lock = false ∧ t = next_input s) := by
  unfold search_input at h
  dsimp only at h
  split_ifs at h with hl
  · left
    split at h
    · simp at h
    · rename_i s2 rest hw
      simp only [Option.some.injEq] at h
      exact ⟨hl, s2, rest, hw, h.symm⟩
  · right
    simp only [Option.some.injEq] at h
    exact ⟨by simpa using hl, h.symm⟩

/-- What a result of the armed `STATE_AUTO_SEARCH` case consists of. -/
lemma case_AUTO_SEARCH_some (e : Env) (s t : Firmware)
    (ha : (interrupts e.early s).signal_autosearch ≠ 0)
    (h : case_AUTO_SEARCH e s = some t) :
    ∃ s1 rest s2, delayMs 100 e.irq (interrupts e.early s) = some (s1, rest) ∧
      search_input e.CS8412_LOCK rest e.before_test s1 = some s2 ∧
      t = leave_search (interrupts e.after_test s2) := by
  unfold case_AUTO_SEARCH at h
  dsimp only at h
  rw [if_pos ha] at h
  split at h
  · simp at h
  · rename_i s1 rest hw
    split at h
    · simp at h
    · rename_i s2 hq
      simp only [Option.some.injEq] at h
      exact ⟨s1, rest, s2, hw, hq, h.symm⟩

/-- The armed `STATE_AUTO_SEARCH` case, composed from the results of its parts. -/
lemma case_AUTO_SEARCH_eq (e : Env) (s s1 s2 : Firmware) (rest : List Interrupt)
    (ha : s.signal_autosearch ≠ 0)
    (h1 : delayMs 100 e.irq (interrupts e.early s) = some (s1, rest))
    (h2 : search_input e.CS8412_LOCK rest e.before_test s1 = some s2) :
    case_AUTO_SEARCH e s = some (leave_search (interrupts e.after_test s2)) := by
  unfold case_AUTO_SEARCH
  dsimp only
  rw [if_pos (by rw [(interrupts_frame e.early s).2.2.1]; exact ha), h1]
  dsimp only
  rw [h2]

/-- The unarmed `STATE_AUTO_SEARCH` case. -/
lemma case_AUTO_SEARCH_unarmed (e : Env) (s : Firmware)
    (ha : (interrupts e.early s).signal_autosearch = 0) :
    case_AUTO_SEARCH e s =
      if (interrupts e.early s).state ≠ STATE_BUTTON_PRESS then
        some (NEXT_STATE (interrupts e.early s))
      else some (interrupts e.early s) := by
  unfold case_AUTO_SEARCH
  dsimp only
  rw [if_neg (by simp [ha])]

lemma search_input_booted (lock : Bool) (irq bt : List Interrupt) (s t : Firmware)
    (hg : s.GIE = 1) (ha : s.active_relay ≤ 4) (h : search_input lock irq bt s = some t) :
    t.GIE = 1 ∧ t.active_relay ≤ 4 ∧ (t.state = s.state ∨ t.state = STATE_BUTTON_PRESS) := by
  rcases search_input_some lock irq bt s t h with ⟨-, s2, r, hw, rfl⟩ | ⟨-, rfl⟩
  · obtain ⟨⟨f1, -, -, -, -, f6, -⟩, hs⟩ := delayMs_loop_frame 10 irq _ s2 r hw
    obtain ⟨g1, -, -, -, -, g6, -⟩ := interrupts_frame bt s2
    have hs2 := interrupts_state bt s2
    simp only [enable_pulse_count] at f1 f6 hs
    refine ⟨by rw [confirm_or_next_GIE, g6, f6]; exact hg,
      confirm_or_next_le _ (by rw [g1, f1]; exact ha), ?_⟩
    rw [confirm_or_next_state]
    rcases hs2 with k | k
    · rcases hs with k1 | k1
      · exact Or.inl (k.trans k1)
      · exact Or.inr (k.trans k1)
    · exact Or.inr k
  · exact ⟨by rw [next_input_GIE]; exact hg, next_input_le s,
      by rw [next_input_state]; exact Or.inl rfl⟩

lemma case_AUTO_SEARCH_booted (e : Env) (s t : Firmware) (hb : Booted s)
    (hst : s.state = STATE_AUTO_SEARCH) (h : case_AUTO_SEARCH e s = some t) : Booted t := by
  obtain ⟨-, -, h3, h4⟩ := hb
  obtain ⟨f1, -, -, -, -, f6, -⟩ := interrupts_frame e.early s
  have hs := interrupts_state e.early s
  by_cases ha : (interrupts e.early s).signal_autosearch = 0
  · rw [case_AUTO_SEARCH_unarmed e s ha] at h
    unfold Booted
    split_ifs at h <;> simp only [Option.some.injEq] at h <;> subst h
    · simp only [NEXT_STATE, STATE_AUTO_SEARCH, STATE_BUTTON_PRESS] at *
      omega
    · simp only [STATE_AUTO_SEARCH, STATE_BUTTON_PRESS, ne_eq, not_not] at *
      omega
  · obtain ⟨s1, rest, s2, hw, hq, rfl⟩ := case_AUTO_SEARCH_some e s t ha h
    obtain ⟨⟨g1, -, -, -, -, g6, -⟩, -⟩ := delayMs_loop_frame 100 e.irq _ s1 rest hw
    simp only at g1 g6
    obtain ⟨k1, k2, -⟩ := search_input_booted _ _ _ _ _ (by omega) (by omega) hq
    obtain ⟨m1, -, -, -, -, m6, -⟩ := interrupts_frame e.after_test s2
    obtain ⟨⟨n1, -, -, -, -, n6, -⟩, -⟩ := leave_search_fields (interrupts e.after_test s2)
    have hls := leave_search_state (interrupts e.after_test s2)
    refine ⟨?_, ?_, by rw [n1, m1]; exact k2, by rw [n6, m6]; exact k1⟩
    · rw [hls]; split_ifs <;> decide
    · rw [hls]; split_ifs <;> decide

lemma case_BUTTON_PRESS_booted (e : Env) (s t : Firmware) (hb : Booted s)
    (hst : s.state = STATE_BUTTON_PRESS) (h : case_BUTTON_PRESS e s = some t) : Booted t := by
  obtain ⟨-, -, h3, h4⟩ := hb
  obtain ⟨f1, -, -, -, -, f6, -⟩ := interrupts_frame e.early s
  have hs := interrupts_state_button e.early s hst
  unfold case_BUTTON_PRESS at h
  dsimp only at h
  unfold Booted
  split_ifs at h with hbtn
  · split at h
    · simp at h
    · rename_i s2 temp rest hw
      obtain ⟨⟨g1, -, -, -, -, g6, -⟩, hs2⟩ := button_loop_frame _ _ _ _ _ _ _ hw
      simp only at g1 g6 hs2 h
      have hn := next_input_le s2
      split_ifs at h <;> simp only [Option.some.injEq] at h <;> subst h
      · simp only [NEXT_STATE, disable_autosearch, next_input_state, next_input_GIE,
          STATE_BUTTON_PRESS] at *
        omega
      · have hn1 := next_input_le { s2 with signal_autosearch := 1 }
        simp only [enable_autosearch, next_input_state, STATE_BUTTON_PRESS] at *
        split_ifs <;> simp only [next_input_state, next_input_GIE, STATE_SET_RELAY] <;> omega
  · simp only [Option.some.injEq] at h
    subst h
    simp only [NEXT_STATE, STATE_BUTTON_PRESS] at *
    omega

lemma case_default_booted (e : Env) (s t : Firmware) (hb : Booted s)
    (h : case_default e s = some t) : Booted t := by
  obtain ⟨-, -, h3, h4⟩ := hb
  obtain ⟨f1, -, -, -, -, f6, -⟩ := interrupts_frame e.early s
  unfold case_default at h
  simp only [Option.some.injEq] at h
  subst h
  simp only [Booted, STATE_SET_RELAY]
  omega

lemma case_INIT_power_on (e : Env) (p : Nat) (t : Firmware) (hp : p ≤ 4)
    (h : case_INIT e (power_on p) = some t) : Booted t := by
  unfold case_INIT at h
  rw [interrupts_GIE_zero e.early (power_on p) rfl] at h
  unfold init at h
  dsimp only at h
  split at h
  · simp at h
  · rename_i s1 rest0 hi
    split at hi
    · simp at hi
    · rename_i s6 rest hw
      obtain ⟨⟨g1, -, -, -, -, g6, -⟩, hs⟩ := delayMs_noninteruptable_loop_frame _ _ _ _ _ hw
      simp only [Option.some.injEq, Prod.mk.injEq] at h hi
      subst h
      rw [← hi.1]
      simp only [write_RELAYS, disable_autosearch, power_on, STATE_INIT, STATE_BUTTON_PRESS,
        NEXT_STATE, Booted] at *
      omega

lemma main_step_booted (e : Env) (s t : Firmware) (hb : Booted s)
    (h : main_step e s = some t) : Booted t := by
  unfold main_step at h
  have h1 := hb.1
  split_ifs at h with c0 c1 c2 c3
  · simp only [STATE_INIT] at c0; omega
  · exact case_SET_RELAY_booted e s t hb c1 h
  · exact case_AUTO_SEARCH_booted e s t hb c2 h
  · exact case_BUTTON_PRESS_booted e s t hb c3 h
  · exact case_default_booted e s t hb h

lemma service_booted (i : Interrupt) (s : Firmware) (hb : Booted s) :
    Booted (service i s) := by
  obtain ⟨h1, h2, h3, h4⟩ := hb
  obtain ⟨f1, -, -, -, -, f6, -⟩ := service_frame i s
  have hs := service_state i s
  simp only [Booted, STATE_BUTTON_PRESS] at *
  omega

lemma reachable_booted (p : Nat) (hp : p ≤ 4) (s : Firmware) (h : Reachable p s) :
    s = power_on p ∨ Booted s := by
  induction h with
  | power_on => exact Or.inl rfl
  | main e s s1 _ hstep ih =>
    rcases ih with ih | ih
    · subst ih
      right
      unfold main_step at hstep
      have h0 : (power_on p).state = STATE_INIT := rfl
      rw [if_pos h0] at hstep
      exact case_INIT_power_on e p s1 hp hstep
    · exact Or.inr (main_step_booted e s s1 ih hstep)
  | isr i s _ ih =>
    rcases ih with ih | ih
    · left
      subst ih
      unfold service
      simp [power_on]
    · exact Or.inr (service_booted i s ih)

set_option maxRecDepth 100000 in
lemma main_step_power_on_2 :
    main_step (quiet (List.replicate 1000 tick)) (power_on 2) = some booted_2 := by
  decide

lemma reachable_booted_2 : Reachable 2 booted_2 :=
  Reachable.main _ _ _ Reachable.power_on main_step_power_on_2

/-! ## Writes to the EEPROM cell and to the relay port, case by case -/

lemma RelayFrame_refl (s : Firmware) : RelayFrame s s := by
  simp [RelayFrame]

lemma RelayFrame_trans {s t u : Firmware} (h1 : RelayFrame s t) (h2 : RelayFrame t u) :
    RelayFrame s u := by
  obtain ⟨a1, a2, a3, a4⟩ := h1
  obtain ⟨b1, b2, b3, b4⟩ := h2
  exact ⟨b1.trans a1, b2.trans a2, b3.trans a3, b4.trans a4⟩

lemma Frame_relay {s t : Firmware} (h : Frame s t) : RelayFrame s t := by
  obtain ⟨-, a2, -, a4, -, -, a7, a8, -⟩ := h
  exact ⟨a2, a4, a8, a7⟩

lemma next_input_relay (s : Firmware) : RelayFrame s (next_input s) := by
  unfold next_input RelayFrame
  split_ifs <;> simp

lemma disable_autosearch_relay (s : Firmware) : RelayFrame s (disable_autosearch s) := by
  simp [disable_autosearch, RelayFrame]

lemma enable_pulse_count_relay (s : Firmware) : RelayFrame s (enable_pulse_count s) := by
  simp [enable_pulse_count, RelayFrame]

lemma NEXT_STATE_relay (s : Firmware) : RelayFrame s (NEXT_STATE s) := by
  simp [NEXT_STATE, RelayFrame]

lemma enable_autosearch_relay (s : Firmware) : RelayFrame s (enable_autosearch s) := by
  unfold enable_autosearch
  dsimp only
  have h := next_input_relay { s with signal_autosearch := 1 }
  split_ifs
  · exact h
  · exact h

lemma confirm_or_next_relay (s : Firmware) : RelayFrame s (confirm_or_next s) := by
  unfold confirm_or_next
  split_ifs
  · exact disable_autosearch_relay s
  · exact next_input_relay s

lemma search_input_relay (lock : Bool) (irq bt : List Interrupt) (s t : Firmware)
    (h : search_input lock irq bt s = some t) : RelayFrame s t := by
  rcases search_input_some lock irq bt s t h with ⟨-, s2, r, hw, rfl⟩ | ⟨-, rfl⟩
  · have hf := Frame_relay (delayMs_loop_frame 10 irq _ s2 r hw).1
    have h0 : RelayFrame s s2 := RelayFrame_trans (enable_pulse_count_relay s) hf
    exact RelayFrame_trans (RelayFrame_trans h0 (Frame_relay (interrupts_frame bt s2)))
      (confirm_or_next_relay _)
  · exact next_input_relay s

lemma case_AUTO_SEARCH_relay (e : Env) (s t : Firmware)
    (h : case_AUTO_SEARCH e s = some t) : RelayFrame s t := by
  have h0 := Frame_relay (interrupts_frame e.early s)
  by_cases ha : (interrupts e.early s).signal_autosearch = 0
  · rw [case_AUTO_SEARCH_unarmed e s ha] at h
    split_ifs at h <;> simp only [Option.some.injEq] at h <;> subst h
    · exact RelayFrame_trans h0 (NEXT_STATE_relay _)
    · exact h0
  · obtain ⟨s1, rest, s2, hw, hq, rfl⟩ := case_AUTO_SEARCH_some e s t ha h
    have h1 : RelayFrame (interrupts e.early s) s1 :=
      Frame_relay (delayMs_loop_frame 100 e.irq _ s1 rest hw).1
    have h2 := search_input_relay _ _ _ _ _ hq
    have h3 := Frame_relay (interrupts_frame e.after_test s2)
    have h4 := Frame_relay (leave_search_fields (interrupts e.after_test s2)).1
    exact RelayFrame_trans (RelayFrame_trans (RelayFrame_trans (RelayFrame_trans h0 h1) h2) h3)
      h4

lemma case_BUTTON_PRESS_relay (e : Env) (s t : Firmware)
    (h : case_BUTTON_PRESS e s = some t) : RelayFrame s t := by
  have h0 := Frame_relay (interrupts_frame e.early s)
  unfold case_BUTTON_PRESS at h
  dsimp only at h
  split_ifs at h with hbtn
  · split at h
    · simp at h
    · rename_i s2 temp rest hw
      have hb0 := Frame_relay (button_loop_frame _ _ _ _ _ _ _ hw).1
      have hb : RelayFrame (interrupts e.early s) s2 := hb0
      have h1 : RelayFrame s s2 := RelayFrame_trans h0 hb
      split_ifs at h <;> simp only [Option.some.injEq] at h <;> subst h
      · exact RelayFrame_trans (RelayFrame_trans (RelayFrame_trans h1 (next_input_relay s2))
          (disable_autosearch_relay _)) (NEXT_STATE_relay _)
      · exact RelayFrame_trans h1 (enable_autosearch_relay s2)
  · simp only [Option.some.injEq] at h
    subst h
    exact RelayFrame_trans h0 (NEXT_STATE_relay _)

lemma case_default_relay (e : Env) (s t : Firmware)
    (h : case_default e s = some t) : RelayFrame s t := by
  have h0 := Frame_relay (interrupts_frame e.early s)
  unfold case_default at h
  simp only [Option.some.injEq] at h
  subst h
  exact h0

lemma set_relay_write (nr : Nat) (s : Firmware) (h : nr ≠ s.non_volatile_active_relay) :
    (set_relay nr s).non_volatile_active_relay = nr ∧
    (set_relay nr s).RELAYS = relay_pattern nr ∧
    (set_relay nr s).relay_writes = relay_pattern nr :: s.relay_writes ∧
    (set_relay nr s).eeprom_writes = s.eeprom_writes + 1 ∧
    (set_relay nr s).signal_pulses = 0 ∧
    (set_relay nr s).pulse_resets = s.pulse_resets + 1 := by
  unfold set_relay write_RELAYS
  rw [if_pos h]
  simp

lemma set_relay_same (nr : Nat) (s : Firmware) (h : nr = s.non_volatile_active_relay) :
    set_relay nr s = s := by
  unfold set_relay
  rw [if_neg (by simpa using h)]

lemma case_SET_RELAY_relay (e : Env) (s t : Firmware)
    (h : case_SET_RELAY e s = some t) :
    RelayFrame s t ∨
      (s.active_relay ≠ s.non_volatile_active_relay ∧
        t.non_volatile_active_relay = s.active_relay ∧
        t.RELAYS = relay_pattern s.active_relay ∧
        t.relay_writes = relay_pattern s.active_relay :: s.relay_writes ∧
        t.eeprom_writes = s.eeprom_writes + 1) := by
  obtain ⟨f1, f2, -, f4, -, -, f7, f8, -⟩ := interrupts_frame e.early s
  have h0 := Frame_relay (interrupts_frame e.early s)
  unfold case_SET_RELAY at h
  dsimp only at h
  have key : RelayFrame s (set_relay (interrupts e.early s).active_relay (interrupts e.early s)) ∨
      (s.active_relay ≠ s.non_volatile_active_relay ∧
        (set_relay (interrupts e.early s).active_relay
          (interrupts e.early s)).non_volatile_active_relay = s.active_relay ∧
        (set_relay (interrupts e.early s).active_relay (interrupts e.early s)).RELAYS =
          relay_pattern s.active_relay ∧
        (set_relay (interrupts e.early s).active_relay (interrupts e.early s)).relay_writes =
          relay_pattern s.active_relay :: s.relay_writes ∧
        (set_relay (interrupts e.early s).active_relay (interrupts e.early s)).eeprom_writes =
          s.eeprom_writes + 1) := by
    by_cases hc : (interrupts e.early s).active_relay =
        (interrupts e.early s).non_volatile_active_relay
    · left
      rw [set_relay_same _ _ hc]
      exact h0
    · right
      obtain ⟨w1, w2, w3, w4, -, -⟩ := set_relay_write _ _ hc
      rw [f1, f2] at hc
      exact ⟨hc, w1.trans f1, w2.trans (by rw [f1]), by rw [w3, f8, f1], by rw [w4, f7]⟩
  split_ifs at h <;> simp only [Option.some.injEq] at h <;> subst h
  · rcases key with k | ⟨k0, k1, k2, k3, k4⟩
    · exact Or.inl (RelayFrame_trans k (NEXT_STATE_relay _))
    · exact Or.inr ⟨k0, k1, k2, k3, k4⟩
  · exact key

lemma init_relay (irq : List Interrupt) (s t : Firmware) (r : List Interrupt)
    (h : init irq s = some (t, r)) :
    t.non_volatile_active_relay = s.non_volatile_active_relay ∧
    t.active_relay = s.non_volatile_active_relay ∧
    t.RELAYS = relay_pattern s.non_volatile_active_relay ∧
    t.relay_writes = relay_pattern s.non_volatile_active_relay :: relays_off :: s.relay_writes ∧
    t.eeprom_writes = s.eeprom_writes ∧
    t.signal_autosearch = 0 ∧
    t.I2S_RELAY = 1 := by
  unfold init at h
  dsimp only at h
  split at h
  · simp at h
  · rename_i s6 rest hw
    obtain ⟨⟨g1, g2, g3, g4, -, -, g7, g8, -⟩, -⟩ :=
      delayMs_noninteruptable_loop_frame _ _ _ _ _ hw
    simp only [Option.some.injEq, Prod.mk.injEq] at h
    rw [← h.1]
    simp only [write_RELAYS, disable_autosearch] at *
    exact ⟨g2, g1, g4, g8, g7, g3, trivial⟩

lemma case_INIT_relay (e : Env) (s t : Firmware) (h : case_INIT e s = some t) :
    t.non_volatile_active_relay = s.non_volatile_active_relay ∧
    t.RELAYS = relay_pattern s.non_volatile_active_relay ∧
    t.relay_writes = relay_pattern s.non_volatile_active_relay :: relays_off :: s.relay_writes ∧
    t.eeprom_writes = s.eeprom_writes := by
  obtain ⟨-, f2, -, -, -, -, f7, f8, -⟩ := interrupts_frame e.early s
  unfold case_INIT at h
  dsimp only at h
  split at h
  · simp at h
  · rename_i s1 rest hi
    obtain ⟨i1, -, i3, i4, i5, -, -⟩ := init_relay _ _ _ _ hi
    simp only [Option.some.injEq] at h
    subst h
    simp only [NEXT_STATE]
    rw [f2] at i1 i3 i4
    exact ⟨i1, i3, by rw [i4, f8], by rw [i5, f7]⟩

/-! ## Waits that see no button request -/

lemma service_state_quiet (i : Interrupt) (s : Firmware) (h : i.INTF = false) :
    (service i s).state = s.state := by
  unfold service
  split_ifs
  · rw [ISR_state, h]; rfl
  · rfl

lemma no_button_cons {i : Interrupt} {rest : List Interrupt} (h : no_button (i :: rest)) :
    i.INTF = false ∧ no_button rest :=
  ⟨h i (List.mem_cons_self i rest), fun j hj => h j (List.mem_cons_of_mem i hj)⟩

lemma delayMs_noninteruptable_loop_quiet (ms : Nat) (irq : List Interrupt) (s t : Firmware)
    (r : List Interrupt) (hq : no_button irq)
    (h : delayMs_noninteruptable_loop ms irq s = some (t, r)) :
    t.state = s.state ∧ no_button r := by
  induction irq generalizing s with
  | nil =>
    unfold delayMs_noninteruptable_loop at h
    split_ifs at h
    simp only [Option.some.injEq, Prod.mk.injEq] at h
    rw [← h.1, ← h.2]
    exact ⟨rfl, hq⟩
  | cons i rest ih =>
    obtain ⟨hi, hrest⟩ := no_button_cons hq
    unfold delayMs_noninteruptable_loop at h
    split_ifs at h
    · obtain ⟨h1, h2⟩ := ih (service i s) hrest h
      exact ⟨h1.trans (service_state_quiet i s hi), h2⟩
    · simp only [Option.some.injEq, Prod.mk.injEq] at h
      rw [← h.1, ← h.2]
      exact ⟨rfl, hq⟩

lemma delayMs_loop_quiet (ms : Nat) (irq : List Interrupt) (s t : Firmware)
    (r : List Interrupt) (hq : no_button irq)
    (h : delayMs_loop ms irq s = some (t, r)) :
    t.state = s.state ∧ no_button r := by
  induction irq generalizing s with
  | nil =>
    unfold delayMs_loop at h
    split_ifs at h
    simp only [Option.some.injEq, Prod.mk.injEq] at h
    rw [← h.1, ← h.2]
    exact ⟨rfl, hq⟩
  | cons i rest ih =>
    obtain ⟨hi, hrest⟩ := no_button_cons hq
    unfold delayMs_loop at h
    split_ifs at h
    · obtain ⟨h1, h2⟩ := ih (service i s) hrest h
      exact ⟨h1.trans (service_state_quiet i s hi), h2⟩
    · simp only [Option.some.injEq, Prod.mk.injEq] at h
      rw [← h.1, ← h.2]
      exact ⟨rfl, hq⟩

/-! ## The function `init` -/

lemma init_total (irq : List Interrupt) (s : Firmware) (ht : 1000 ≤ ticks irq) :
    ∃ t r, init irq s = some (t, r) ∧
      (t.state = s.state ∨ t.state = STATE_BUTTON_PRESS) ∧
      (no_button irq → t.state = s.state) ∧
      t.GIE = 1 ∧ ticks r + 1000 = ticks irq := by
  unfold init
  dsimp only
  generalize hs5 : write_RELAYS _ _ = s5
  have hg : s5.GIE ≠ 0 := by rw [← hs5]; simp [write_RELAYS]
  have hg1 : s5.GIE = 1 := by rw [← hs5]; simp [write_RELAYS]
  have hst : s5.state = s.state := by rw [← hs5]; simp [write_RELAYS, disable_autosearch]
  obtain ⟨t, r, h1, -, h3, hf, hs⟩ :=
    delayMs_noninteruptable_total 1000 (by decide) irq s5 hg ht
  rw [h1]
  refine ⟨_, r, rfl, ?_, ?_, ?_, h3⟩
  · rw [hst] at hs
    exact hs
  · intro hq
    have := (delayMs_noninteruptable_loop_quiet _ _ _ _ _ hq h1).1
    exact this.trans hst
  · exact hf.2.2.2.2.2.1.trans hg1

/-! ## Dispatch of the main loop -/

lemma main_step_INIT (e : Env) (s : Firmware) (h : s.state = STATE_INIT) :
    main_step e s = case_INIT e s := by
  unfold main_step
  rw [if_pos h]

lemma main_step_SET_RELAY (e : Env) (s : Firmware) (h : s.state = STATE_SET_RELAY) :
    main_step e s = case_SET_RELAY e s := by
  unfold main_step
  rw [if_neg (by rw [h]; decide), if_pos h]

lemma main_step_AUTO_SEARCH (e : Env) (s : Firmware) (h : s.state = STATE_AUTO_SEARCH) :
    main_step e s = case_AUTO_SEARCH e s := by
  unfold main_step
  rw [if_neg (by rw [h]; decide), if_neg (by rw [h]; decide), if_pos h]

lemma main_step_BUTTON_PRESS (e : Env) (s : Firmware) (h : s.state = STATE_BUTTON_PRESS) :
    main_step e s = case_BUTTON_PRESS e s := by
  unfold main_step
  rw [if_neg (by rw [h]; decide), if_neg (by rw [h]; decide), if_neg (by rw [h]; decide),
    if_pos h]

lemma main_step_default (e : Env) (s : Firmware) (h : 4 ≤ s.state) :
    main_step e s = case_default e s := by
  unfold main_step
  simp only [STATE_INIT, STATE_SET_RELAY, STATE_AUTO_SEARCH, STATE_BUTTON_PRESS]
  rw [if_neg (by omega), if_neg (by omega), if_neg (by omega), if_neg (by omega)]

/-! ## C1: range of the active input -/

/-- C1 (as amended): with an input index in the EEPROM cell at reset, every
state the firmware reaches other than the reset state itself, that is every
state from the end of the `STATE_INIT` iteration on, under any interrupt
requests and any button and lock readings, has `active_relay` in [0,4]. -/
theorem C1_active_relay_in_range_after_init (p : Nat) (hp : p ≤ 4) (s : Firmware)
    (h : Reachable p s) (hs : s ≠ power_on p) : s.active_relay ≤ 4 := by
  rcases reachable_booted p hp s h with h1 | h1
  · exact absurd h1 hs
  · exact h1.2.2.1

/-- C1, witness: the state after booting with 2 in the EEPROM cell. -/
theorem C1_active_relay_in_range_after_init_witness :
    Reachable 2 booted_2 ∧ booted_2 ≠ power_on 2 ∧ booted_2.active_relay ≤ 4 :=
  ⟨reachable_booted_2, by decide,
    C1_active_relay_in_range_after_init 2 (by decide) booted_2 reachable_booted_2 (by decide)⟩

/-- C1, counterexample to the claim as stated: the reset state is reachable
(with 2, an input index, in the EEPROM cell) and its `active_relay` is 5. -/
theorem C1_power_on_active_relay_is_5 :
    ¬ (∀ (p : Nat) (s : Firmware), p ≤ 4 → Reachable p s → s.active_relay ≤ 4) := by
  intro h
  have h5 : (power_on 2).active_relay ≤ 4 := h 2 (power_on 2) (by decide) Reachable.power_on
  exact absurd h5 (by decide)

/-! ## C2: one relay line at a time -/

lemma one_shl_ge (nr : Nat) (h : 8 ≤ nr) : one_shl nr = 0 := by
  unfold one_shl
  obtain ⟨k, rfl⟩ := Nat.exists_eq_add_of_le h
  rw [Nat.one_shiftLeft, Nat.pow_add]
  norm_num

lemma relay_pattern_lines (nr : Nat) (hnr : nr ≤ 4) (k : Nat) (hk : k < 5) :
    (relay_active (relay_pattern nr) k = true ↔ k = nr) ∧
    ((relay_pattern nr).testBit k = false ↔ k = nr) := by
  have key : ∀ n, n < 5 → ∀ j, j < 5 →
      ((relay_active (relay_pattern n) j = true ↔ j = n) ∧
       ((relay_pattern n).testBit j = false ↔ j = n)) := by decide
  exact key nr (by omega) k hk

lemma active_lines_relay_pattern (nr : Nat) : active_lines (relay_pattern nr) ≤ 1 := by
  by_cases h : nr < 8
  · have key : ∀ n, n < 8 → active_lines (relay_pattern n) ≤ 1 := by decide
    exact key nr h
  · have h0 : relay_pattern nr = 255 := by
      unfold relay_pattern
      rw [one_shl_ge nr (by omega)]
      decide
    rw [h0]
    decide

lemma active_lines_relays_off : active_lines relays_off = 0 := by decide

lemma main_step_relay_writes (e : Env) (s t : Firmware) (h : main_step e s = some t) :
    t.relay_writes = s.relay_writes ∨
    (∃ nr, t.relay_writes = relay_pattern nr :: s.relay_writes) ∨
    (∃ nr, t.relay_writes = relay_pattern nr :: relays_off :: s.relay_writes) := by
  unfold main_step at h
  split_ifs at h
  · exact Or.inr (Or.inr ⟨_, (case_INIT_relay e s t h).2.2.1⟩)
  · rcases case_SET_RELAY_relay e s t h with k | ⟨-, -, -, k, -⟩
    · exact Or.inl k.2.2.1
    · exact Or.inr (Or.inl ⟨_, k⟩)
  · exact Or.inl (case_AUTO_SEARCH_relay e s t h).2.2.1
  · exact Or.inl (case_BUTTON_PRESS_relay e s t h).2.2.1
  · exact Or.inl (case_default_relay e s t h).2.2.1

lemma reachable_relay_writes (p : Nat) (s : Firmware) (h : Reachable p s) :
    ∀ v ∈ s.relay_writes, active_lines v ≤ 1 := by
  induction h with
  | power_on => intro v hv; simp [power_on] at hv
  | main e s s1 _ hstep ih =>
    intro v hv
    rcases main_step_relay_writes e s s1 hstep with k | ⟨nr, k⟩ | ⟨nr, k⟩
    · rw [k] at hv; exact ih v hv
    · rw [k] at hv
      rcases List.mem_cons.mp hv with h1 | h1
      · rw [h1]; exact active_lines_relay_pattern nr
      · exact ih v h1
    · rw [k] at hv
      rcases List.mem_cons.mp hv with h1 | h1
      · rw [h1]; exact active_lines_relay_pattern nr
      · rcases List.mem_cons.mp h1 with h2 | h2
        · rw [h2, active_lines_relays_off]; exact Nat.zero_le 1
        · exact ih v h2
  | isr i s _ ih =>
    intro v hv
    rw [(service_frame i s).2.2.2.2.2.2.2.1] at hv
    exact ih v hv

/-- C2: for an input index `nr` in [0,4], `set_relay nr` (when it writes, that
is when `nr` differs from the EEPROM copy) and `init` (with `nr` in the EEPROM
cell) write `relay_pattern nr` to the relay port; in that pattern relay line
`nr` is the only active one of the five lines, bit `nr` being the only one of
bits 0..4 that is 0; and in every reachable state, whatever the EEPROM cell held
at reset, every value ever written to the relay port has at most one of the
five lines active. -/
theorem C2_one_relay_line_active (nr : Nat) (hnr : nr ≤ 4) :
    (∀ s : Firmware, nr ≠ s.non_volatile_active_relay →
        (set_relay nr s).RELAYS = relay_pattern nr ∧
        (set_relay nr s).relay_writes = relay_pattern nr :: s.relay_writes) ∧
    (∀ (irq : List Interrupt) (s : Firmware),
        s.non_volatile_active_relay = nr → 1000 ≤ ticks irq →
        ∃ t r, init irq s = some (t, r) ∧ t.RELAYS = relay_pattern nr ∧
          t.relay_writes = relay_pattern nr :: relays_off :: s.relay_writes) ∧
    (∀ k, k < 5 → (relay_active (relay_pattern nr) k = true ↔ k = nr)) ∧
    (∀ k, k < 5 → ((relay_pattern nr).testBit k = false ↔ k = nr)) ∧
    active_lines relays_off = 0 ∧
    (∀ (p : Nat) (s : Firmware), Reachable p s →
        ∀ v ∈ s.relay_writes, active_lines v ≤ 1) := by
  refine ⟨?_, ?_, ?_, ?_, active_lines_relays_off, reachable_relay_writes⟩
  · intro s h
    obtain ⟨-, w2, w3, -⟩ := set_relay_write nr s h
    exact ⟨w2, w3⟩
  · intro irq s hs ht
    obtain ⟨t, r, h1, -⟩ := init_total irq s ht
    obtain ⟨-, -, i3, i4, -⟩ := init_relay irq s t r h1
    rw [hs] at i3 i4
    exact ⟨t, r, h1, i3, i4⟩
  · intro k hk
    exact (relay_pattern_lines nr hnr k hk).1
  · intro k hk
    exact (relay_pattern_lines nr hnr k hk).2

/-- C2, witness: input 2, selected from the reset state with 0 in the EEPROM
cell; the pattern is `0b11111011`. -/
theorem C2_one_relay_line_active_witness :
    (set_relay 2 (power_on 0)).RELAYS = 0b11111011 ∧
    (∀ k, k < 5 → (relay_active 0b11111011 k = true ↔ k = 2)) ∧
    (∀ v ∈ booted_2.relay_writes, active_lines v ≤ 1) :=
  ⟨((C2_one_relay_line_active 2 (by decide)).1 (power_on 0) (by decide)).1,
    (C2_one_relay_line_active 2 (by decide)).2.2.1,
    (C2_one_relay_line_active 2 (by decide)).2.2.2.2.2 2 booted_2 reachable_booted_2⟩

/-! ## C3: selecting the same input twice -/

lemma set_relay_nv (x : Nat) (s : Firmware) :
    (set_relay x s).non_volatile_active_relay = x := by
  by_cases h : x = s.non_volatile_active_relay
  · rw [set_relay_same x s h]; exact h.symm
  · exact (set_relay_write x s h).1

lemma set_relay_counts (x : Nat) (s : Firmware) :
    (set_relay x s).eeprom_writes ≤ s.eeprom_writes + 1 ∧
    (set_relay x s).relay_writes.length ≤ s.relay_writes.length + 1 ∧
    (set_relay x s).pulse_resets ≤ s.pulse_resets + 1 := by
  by_cases h : x = s.non_volatile_active_relay
  · rw [set_relay_same x s h]
    exact ⟨Nat.le_succ _, Nat.le_succ _, Nat.le_succ _⟩
  · obtain ⟨-, -, w3, w4, -, w6⟩ := set_relay_write x s h
    rw [w3, w4, w6]
    exact ⟨le_refl _, by simp, le_refl _⟩

/-- C3: for every `x` and every state, the second of two consecutive calls
`set_relay(x)` changes nothing at all, so the two calls together perform the
EEPROM write, the relay-port write and the pulse-count reset at most once; the
same holds when interrupt requests are serviced between the two calls. -/
theorem C3_set_relay_twice (x : Nat) (s : Firmware) :
    set_relay x (set_relay x s) = set_relay x s ∧
    (set_relay x (set_relay x s)).eeprom_writes ≤ s.eeprom_writes + 1 ∧
    (set_relay x (set_relay x s)).relay_writes.length ≤ s.relay_writes.length + 1 ∧
    (set_relay x (set_relay x s)).pulse_resets ≤ s.pulse_resets + 1 ∧
    (∀ irq : List Interrupt,
      set_relay x (interrupts irq (set_relay x s)) = interrupts irq (set_relay x s)) := by
  have h2 : set_relay x (set_relay x s) = set_relay x s :=
    set_relay_same x _ (set_relay_nv x s).symm
  obtain ⟨c1, c2, c3⟩ := set_relay_counts x s
  refine ⟨h2, by rw [h2]; exact c1, by rw [h2]; exact c2, by rw [h2]; exact c3, ?_⟩
  intro irq
  apply set_relay_same
  rw [(interrupts_frame irq (set_relay x s)).2.1, set_relay_nv]

/-! ## C4: wrap-around of `next_input` -/

/-- C4: from every input index `i` (0..4) `next_input` yields `(i + 1) mod 5`, so
that 4 wraps to 0, and five applications give back the state they started
from, `active_relay = i` included. -/
theorem C4_next_input_wrap (s : Firmware) (i : Nat) (hi : i ≤ 4)
    (hs : s.active_relay = i) :
    (next_input s).active_relay = (i + 1) % 5 ∧
    (i = 4 → (next_input s).active_relay = 0) ∧
    (next_input^[5] s).active_relay = i ∧
    next_input^[5] s = s := by
  obtain ⟨st, a, nv, au, pu, ms, re, i2, rb, gi, ew, rw, pr⟩ := s
  simp only at hs
  subst hs
  interval_cases a <;> refine ⟨rfl, ?_, rfl, rfl⟩ <;> intro h <;> first | rfl | omega

/-- C4, witness: starting from input 4 in the booted state. -/
theorem C4_next_input_wrap_witness :
    (next_input { booted_2 with active_relay := 4 }).active_relay = 0 ∧
    next_input^[5] { booted_2 with active_relay := 4 } = { booted_2 with active_relay := 4 } :=
  ⟨(C4_next_input_wrap { booted_2 with active_relay := 4 } 4 (by decide) rfl).2.1 rfl,
    (C4_next_input_wrap { booted_2 with active_relay := 4 } 4 (by decide) rfl).2.2.2⟩

/-! ## C5: cancellation of a wait -/

lemma delayMs_loop_cons (ms : Nat) (i : Interrupt) (rest : List Interrupt) (s : Firmware)
    (h : s.milliseconds < ms ∧ s.state ≠ STATE_BUTTON_PRESS) :
    delayMs_loop ms (i :: rest) s = delayMs_loop ms rest (service i s) := by
  conv_lhs => unfold delayMs_loop
  rw [if_pos h]

lemma delayMs_loop_exit (ms : Nat) (irq : List Interrupt) (s : Firmware)
    (h : ¬ (s.milliseconds < ms ∧ s.state ≠ STATE_BUTTON_PRESS)) :
    delayMs_loop ms irq s = some (s, irq) := by
  cases irq with
  | nil => unfold delayMs_loop; rw [if_neg h]
  | cons i rest => unfold delayMs_loop; rw [if_neg h]

lemma delayMs_loop_button (ms : Nat) (irq : List Interrupt) (s : Firmware)
    (h : s.state = STATE_BUTTON_PRESS) : delayMs_loop ms irq s = some (s, irq) :=
  delayMs_loop_exit ms irq s (by simp [h])

lemma service_button (i : Interrupt) (s : Firmware) (hg : s.GIE ≠ 0) (hi : i.INTF = true) :
    (service i s).state = STATE_BUTTON_PRESS := by
  unfold service
  rw [if_pos hg, ISR_state, if_pos hi]

lemma interrupts_button (irq : List Interrupt) (s : Firmware) (hg : s.GIE ≠ 0)
    (h : ∃ i ∈ irq, i.INTF = true) : (interrupts irq s).state = STATE_BUTTON_PRESS := by
  induction irq generalizing s with
  | nil => obtain ⟨i, hi, -⟩ := h; simp at hi
  | cons j rest ih =>
    obtain ⟨i, hi, hb⟩ := h
    rcases List.mem_cons.mp hi with h1 | h1
    · subst h1
      exact interrupts_state_button rest _ (service_button i s hg hb)
    · exact ih (service j s) (by rw [service_GIE]; exact hg) ⟨i, h1, hb⟩

lemma interrupts_quiet (irq : List Interrupt) (s : Firmware) (hq : no_button irq) :
    (interrupts irq s).state = s.state := by
  induction irq generalizing s with
  | nil => rfl
  | cons i rest ih =>
    obtain ⟨hi, hrest⟩ := no_button_cons hq
    exact (ih (service i s) hrest).trans (service_state_quiet i s hi)

/-- A wait whose list of requests starts with `pre`, free of button requests
and with fewer ticks than the wait still needs, services all of `pre`. -/
lemma delayMs_loop_run (ms : Nat) (hms : ms ≤ ULONG_MAX) (pre more : List Interrupt)
    (s : Firmware) (hg : s.GIE ≠ 0) (hst : s.state ≠ STATE_BUTTON_PRESS)
    (hq : no_button pre) (ht : s.milliseconds + ticks pre < ms) :
    delayMs_loop ms (pre ++ more) s = delayMs_loop ms more (interrupts pre s) ∧
    (interrupts pre s).milliseconds = s.milliseconds + ticks pre := by
  induction pre generalizing s with
  | nil => exact ⟨rfl, by rw [ticks_nil]; rfl⟩
  | cons j rest ih =>
    obtain ⟨hj, hrest⟩ := no_button_cons hq
    rw [ticks_cons] at ht
    have hm := service_milliseconds j s hg (by omega)
    have hs1 : (service j s).state ≠ STATE_BUTTON_PRESS := by
      rw [service_state_quiet j s hj]; exact hst
    obtain ⟨h1, h2⟩ := ih (service j s) (by rw [service_GIE]; exact hg) hs1 hrest
      (by rw [hm]; omega)
    constructor
    · show delayMs_loop ms (j :: (rest ++ more)) s = _
      rw [delayMs_loop_cons ms j _ s ⟨by omega, hst⟩]
      exact h1
    · show (interrupts rest (service j s)).milliseconds = _
      rw [h2, hm, ticks_cons]
      omega

/-- The cancellation of a wait: `pre` is serviced without a button request,
then request `i` carries the button flag. -/
lemma delayMs_loop_cancel (ms : Nat) (hms : ms ≤ ULONG_MAX) (pre : List Interrupt)
    (i : Interrupt) (rest : List Interrupt) (s : Firmware) (hg : s.GIE ≠ 0)
    (hst : s.state ≠ STATE_BUTTON_PRESS) (hq : no_button pre) (hi : i.INTF = true)
    (ht : s.milliseconds + ticks (pre ++ [i]) < ms) :
    ∃ t, delayMs_loop ms (pre ++ i :: rest) s = some (t, rest) ∧
      t.milliseconds = s.milliseconds + ticks (pre ++ [i]) ∧
      t.state = STATE_BUTTON_PRESS ∧ Frame s t := by
  rw [ticks_append] at ht
  have htc : ticks [i] = (if i.T0IF then 1 else 0) := by rw [ticks_cons, ticks_nil]; rfl
  obtain ⟨h1, h2⟩ := delayMs_loop_run ms hms pre (i :: rest) s hg hst hq (by omega)
  have hs0 : (interrupts pre s).state ≠ STATE_BUTTON_PRESS := by
    rw [interrupts_quiet pre s hq]; exact hst
  have hg0 : (interrupts pre s).GIE ≠ 0 := by
    rw [(interrupts_frame pre s).2.2.2.2.2.1]; exact hg
  have hm := service_milliseconds i (interrupts pre s) hg0 (by omega)
  refine ⟨service i (interrupts pre s), ?_, ?_, service_button i _ hg0 hi,
    Frame_trans (interrupts_frame pre s) (service_frame i _)⟩
  · rw [h1, delayMs_loop_cons ms i rest _ ⟨by omega, hs0⟩]
    exact delayMs_loop_button ms rest _ (service_button i _ hg0 hi)
  · rw [hm, h2, ticks_append, htc]
    omega

/-- A wait that runs to its full duration: `pre` brings the clock to one tick
short of `ms` without a button request and `tk` is the last tick. -/
lemma delayMs_loop_full (ms : Nat) (hms : ms ≤ ULONG_MAX) (pre : List Interrupt)
    (tk : Interrupt) (more : List Interrupt) (s : Firmware) (hg : s.GIE ≠ 0)
    (hst : s.state ≠ STATE_BUTTON_PRESS) (hq : no_button pre) (hk : tk.T0IF = true)
    (hkq : tk.INTF = false) (ht : s.milliseconds + ticks pre + 1 = ms) :
    ∃ t, delayMs_loop ms (pre ++ tk :: more) s = some (t, more) ∧
      t.milliseconds = ms ∧ t.state = s.state ∧ Frame s t := by
  obtain ⟨h1, h2⟩ := delayMs_loop_run ms hms pre (tk :: more) s hg hst hq (by omega)
  have hs0 : (interrupts pre s).state ≠ STATE_BUTTON_PRESS := by
    rw [interrupts_quiet pre s hq]; exact hst
  have hg0 : (interrupts pre s).GIE ≠ 0 := by
    rw [(interrupts_frame pre s).2.2.2.2.2.1]; exact hg
  have hm := service_milliseconds tk (interrupts pre s) hg0 (by omega)
  rw [if_pos hk] at hm
  refine ⟨service tk (interrupts pre s), ?_, by rw [hm, h2]; omega,
    (service_state_quiet tk _ hkq).trans (interrupts_quiet pre s hq),
    Frame_trans (interrupts_frame pre s) (service_frame tk _)⟩
  rw [h1, delayMs_loop_cons ms tk more _ ⟨by omega, hs0⟩]
  exact delayMs_loop_exit ms more _ (by rw [hm, h2]; omega)

lemma leave_search_button (l : List Interrupt) (s : Firmware)
    (h : s.state = STATE_BUTTON_PRESS) :
    (leave_search (interrupts l s)).state = STATE_BUTTON_PRESS := by
  rw [leave_search_state, if_neg (by simp [interrupts_state_button l s h])]

lemma search_input_eq (irq bt : List Interrupt) (s s2 : Firmware) (r : List Interrupt)
    (h : delayMs 10 irq (enable_pulse_count s) = some (s2, r)) :
    search_input true irq bt s = some (confirm_or_next (interrupts bt s2)) := by
  unfold search_input
  rw [if_pos rfl]
  dsimp only
  rw [h]

lemma search_input_unlocked (irq bt : List Interrupt) (s : Firmware) :
    search_input false irq bt s = some (next_input s) := by
  unfold search_input
  rw [if_neg (by decide)]

lemma delayMs_button (ms : Nat) (irq : List Interrupt) (s : Firmware)
    (h : s.state = STATE_BUTTON_PRESS) :
    delayMs ms irq s = some ({ s with milliseconds := 0 }, irq) :=
  delayMs_loop_button ms irq { s with milliseconds := 0 } h

lemma search_input_button (lock : Bool) (irq bt : List Interrupt) (s : Firmware)
    (h : s.state = STATE_BUTTON_PRESS) :
    ∃ t, search_input lock irq bt s = some t ∧ t.state = STATE_BUTTON_PRESS := by
  cases lock
  · exact ⟨_, search_input_unlocked irq bt s, by rw [next_input_state]; exact h⟩
  · refine ⟨_, search_input_eq irq bt s _ irq (delayMs_button 10 irq _ h), ?_⟩
    rw [confirm_or_next_state]
    exact interrupts_state_button bt _ h

lemma delayMs_cancel (D : Nat) (hD : D ≤ UINT_MAX) (pre : List Interrupt) (i : Interrupt)
    (rest : List Interrupt) (s : Firmware) (hg : s.GIE ≠ 0)
    (hst : s.state ≠ STATE_BUTTON_PRESS) (hq : no_button pre) (hi : i.INTF = true)
    (ht : ticks (pre ++ [i]) < D) :
    ∃ s1, delayMs D (pre ++ i :: rest) s = some (s1, rest) ∧
      s1.milliseconds = ticks (pre ++ [i]) ∧ s1.state = STATE_BUTTON_PRESS ∧ Frame s s1 := by
  have hU : D ≤ ULONG_MAX := le_trans hD (by decide)
  obtain ⟨t, h1, h2, h3, h4⟩ :=
    delayMs_loop_cancel D hU pre i rest { s with milliseconds := 0 } hg hst hq hi
      (by simpa using ht)
  exact ⟨t, h1, by simpa using h2, h3, h4⟩

lemma case_AUTO_SEARCH_settle_cancel (e : Env) (s : Firmware) (pre : List Interrupt)
    (i : Interrupt) (rest : List Interrupt) (hg : s.GIE ≠ 0)
    (ha : s.signal_autosearch ≠ 0) (hst : s.state ≠ STATE_BUTTON_PRESS)
    (he : no_button e.early) (hirq : e.irq = pre ++ i :: rest) (hq : no_button pre)
    (hi : i.INTF = true) (ht : ticks (pre ++ [i]) < 100) :
    ∃ t, case_AUTO_SEARCH e s = some t ∧ t.state = STATE_BUTTON_PRESS := by
  obtain ⟨-, -, f3, -, -, f6, -⟩ := interrupts_frame e.early s
  have hs0 : (interrupts e.early s).state ≠ STATE_BUTTON_PRESS := by
    rw [interrupts_quiet e.early s he]; exact hst
  obtain ⟨s1, h1, -, h3, -⟩ := delayMs_cancel 100 (by decide) pre i rest (interrupts e.early s)
    (by rw [f6]; exact hg) hs0 hq hi ht
  obtain ⟨s2, h4, h5⟩ := search_input_button e.CS8412_LOCK rest e.before_test s1 h3
  exact ⟨_, case_AUTO_SEARCH_eq e s s1 s2 rest ha (by rw [hirq]; exact h1) h4,
    leave_search_button e.after_test s2 h5⟩

lemma search_input_cancel (pre : List Interrupt) (i : Interrupt) (rest bt : List Interrupt)
    (s : Firmware) (hg : s.GIE ≠ 0) (hst : s.state ≠ STATE_BUTTON_PRESS)
    (hq : no_button pre) (hi : i.INTF = true) (ht : ticks (pre ++ [i]) < 10) :
    ∃ t, search_input true (pre ++ i :: rest) bt s = some t ∧
      t.state = STATE_BUTTON_PRESS := by
  obtain ⟨s2, h5, -, h7, -⟩ := delayMs_cancel 10 (by decide) pre i rest (enable_pulse_count s)
    (by simpa [enable_pulse_count] using hg) (by simpa [enable_pulse_count] using hst) hq hi ht
  refine ⟨_, search_input_eq _ bt s s2 rest h5, ?_⟩
  rw [confirm_or_next_state]
  exact interrupts_state_button bt s2 h7

lemma case_AUTO_SEARCH_sample_cancel (e : Env) (s : Firmware) (w : List Interrupt)
    (tk : Interrupt) (pre : List Interrupt) (i : Interrupt) (rest : List Interrupt)
    (hg : s.GIE ≠ 0) (ha : s.signal_autosearch ≠ 0) (hst : s.state ≠ STATE_BUTTON_PRESS)
    (he : no_button e.early) (hl : e.CS8412_LOCK = true)
    (hirq : e.irq = w ++ tk :: (pre ++ i :: rest))
    (hw : no_button w) (hwt : ticks w = 99) (hk : tk.T0IF = true) (hkq : tk.INTF = false)
    (hq : no_button pre) (hi : i.INTF = true) (ht : ticks (pre ++ [i]) < 10) :
    ∃ t, case_AUTO_SEARCH e s = some t ∧ t.state = STATE_BUTTON_PRESS := by
  obtain ⟨-, -, f3, -, -, f6, -⟩ := interrupts_frame e.early s
  have hs0 : (interrupts e.early s).state ≠ STATE_BUTTON_PRESS := by
    rw [interrupts_quiet e.early s he]; exact hst
  obtain ⟨s1, h1, -, h3, h4⟩ :=
    delayMs_loop_full 100 (by decide) w tk (pre ++ i :: rest)
      { interrupts e.early s with milliseconds := 0 } (by simpa [f6] using hg) hs0 hw hk hkq
      (by simp [hwt])
  have hs1 : s1.state ≠ STATE_BUTTON_PRESS := by rw [h3]; exact hs0
  have hg1 : s1.GIE ≠ 0 := by rw [h4.2.2.2.2.2.1]; simpa [f6] using hg
  obtain ⟨s2, h5, h6⟩ := search_input_cancel pre i rest e.before_test s1 hg1 hs1 hq hi ht
  have h1a : delayMs 100 e.irq (interrupts e.early s) = some (s1, pre ++ i :: rest) := by
    rw [hirq]; exact h1
  exact ⟨_, case_AUTO_SEARCH_eq e s s1 s2 _ ha h1a (by rw [hl]; exact h5),
    leave_search_button e.after_test s2 h6⟩

lemma case_SET_RELAY_cancel (e : Env) (s : Firmware) (hg : s.GIE ≠ 0)
    (hb : ∃ i ∈ e.early, i.INTF = true) :
    ∃ t, case_SET_RELAY e s = some t ∧ t.state = STATE_BUTTON_PRESS := by
  have h := interrupts_button e.early s hg hb
  unfold case_SET_RELAY
  dsimp only
  rw [if_neg (by simp [h])]
  exact ⟨_, rfl, by simp [h]⟩

/-- C5: (1) for every duration `D` of a `delayMs(D)` and every `t < D`: when the
wait is entered with `state` other than `STATE_BUTTON_PRESS` and the request
that carries the button flag is serviced at the moment `t` timer ticks have
been counted, the wait returns there, leaving the later requests unserviced,
with `milliseconds = t` (below `D`) and `state = STATE_BUTTON_PRESS`;
(2) an armed `STATE_AUTO_SEARCH` iteration whose 100 ms wait is cancelled in
this way ends with `state = STATE_BUTTON_PRESS`; (3) so does one whose 10 ms
sampling wait is cancelled; (4) a `STATE_SET_RELAY` iteration (which has no
wait) during which the button request is serviced ends with
`state = STATE_BUTTON_PRESS` as well. -/
theorem C5_wait_cancellation :
    (∀ (D t : Nat) (pre : List Interrupt) (i : Interrupt) (rest : List Interrupt)
        (s : Firmware),
        D ≤ UINT_MAX → t < D → s.GIE ≠ 0 → s.state ≠ STATE_BUTTON_PRESS →
        no_button pre → i.INTF = true → ticks (pre ++ [i]) = t →
        ∃ s1, delayMs D (pre ++ i :: rest) s = some (s1, rest) ∧
          s1.milliseconds = t ∧ s1.milliseconds < D ∧ s1.state = STATE_BUTTON_PRESS) ∧
    (∀ (e : Env) (s : Firmware) (pre : List Interrupt) (i : Interrupt)
        (rest : List Interrupt),
        s.state = STATE_AUTO_SEARCH → s.GIE ≠ 0 → s.signal_autosearch ≠ 0 →
        no_button e.early → e.irq = pre ++ i :: rest →
        no_button pre → i.INTF = true → ticks (pre ++ [i]) < 100 →
        ∃ s1, main_step e s = some s1 ∧ s1.state = STATE_BUTTON_PRESS) ∧
    (∀ (e : Env) (s : Firmware) (w : List Interrupt) (tk : Interrupt)
        (pre : List Interrupt) (i : Interrupt) (rest : List Interrupt),
        s.state = STATE_AUTO_SEARCH → s.GIE ≠ 0 → s.signal_autosearch ≠ 0 →
        no_button e.early → e.CS8412_LOCK = true →
        e.irq = w ++ tk :: (pre ++ i :: rest) →
        no_button w → ticks w = 99 → tk.T0IF = true → tk.INTF = false →
        no_button pre → i.INTF = true → ticks (pre ++ [i]) < 10 →
        ∃ s1, main_step e s = some s1 ∧ s1.state = STATE_BUTTON_PRESS) ∧
    (∀ (e : Env) (s : Firmware),
        s.state = STATE_SET_RELAY → s.GIE ≠ 0 → (∃ i ∈ e.early, i.INTF = true) →
        ∃ s1, main_step e s = some s1 ∧ s1.state = STATE_BUTTON_PRESS) := by
  refine ⟨?_, ?_, ?_, ?_⟩
  · intro D t pre i rest s hD ht hg hst hq hi htk
    obtain ⟨s1, h1, h2, h3, -⟩ := delayMs_cancel D hD pre i rest s hg hst hq hi (by omega)
    exact ⟨s1, h1, by omega, by omega, h3⟩
  · intro e s pre i rest hs hg ha he hirq hq hi ht
    rw [main_step_AUTO_SEARCH e s hs]
    exact case_AUTO_SEARCH_settle_cancel e s pre i rest hg ha (by rw [hs]; decide) he hirq hq
      hi ht
  · intro e s w tk pre i rest hs hg ha he hl hirq hw hwt hk hkq hq hi ht
    rw [main_step_AUTO_SEARCH e s hs]
    exact case_AUTO_SEARCH_sample_cancel e s w tk pre i rest hg ha (by rw [hs]; decide) he hl
      hirq hw hwt hk hkq hq hi ht
  · intro e s hs hg hb
    rw [main_step_SET_RELAY e s hs]
    exact case_SET_RELAY_cancel e s hg hb

/-- C5, witness: a 100 ms wait and an armed auto search, both cancelled by the
button after 3 ticks. -/
theorem C5_wait_cancellation_witness :
    (∃ s1, delayMs 100 cancel_after_3 searching_2 = some (s1, [tick]) ∧
      s1.milliseconds = 3 ∧ s1.milliseconds < 100 ∧ s1.state = STATE_BUTTON_PRESS) ∧
    (∃ s1, main_step cancel_env searching_2 = some s1 ∧ s1.state = STATE_BUTTON_PRESS) :=
  ⟨C5_wait_cancellation.1 100 3 [tick, tick, tick] button_irq [tick] searching_2
      (by decide) (by decide) (by decide) (by decide) (by decide) rfl rfl,
    C5_wait_cancellation.2.1 cancel_env searching_2 [tick, tick, tick] button_irq [tick]
      rfl (by decide) (by decide) (by decide) rfl (by decide) rfl (by decide)⟩

/-! ## C6: short and long presses -/

lemma button_loop_total (n : Nat) (temp : Nat) (irq : List Interrupt) (s : Firmware)
    (hg : s.GIE ≠ 0) (htemp : temp ≤ UINT_MAX) (ht : 5 * n ≤ ticks irq) :
    ∃ t r, button_loop n temp irq s = some (t, min (temp + n) UINT_MAX, r) ∧
      ticks r + 5 * n = ticks irq ∧ Frame s t ∧
      (t.state = s.state ∨ t.state = STATE_BUTTON_PRESS) := by
  induction n generalizing temp irq s with
  | zero =>
    refine ⟨s, irq, ?_, by omega, Frame_refl s, Or.inl rfl⟩
    unfold button_loop
    rw [Nat.add_zero, Nat.min_eq_left htemp]
  | succ k ih =>
    obtain ⟨s1, rest, h1, -, h3, h4, h5⟩ :=
      delayMs_noninteruptable_total 5 (by decide) irq s hg (by omega)
    have hg1 : s1.GIE ≠ 0 := by rw [h4.2.2.2.2.2.1]; exact hg
    have htemp1 : (if temp < UINT_MAX then temp + 1 else temp) ≤ UINT_MAX := by
      split_ifs <;> omega
    obtain ⟨t, r, k1, k2, k3, k4⟩ := ih _ rest s1 hg1 htemp1 (by omega)
    refine ⟨t, r, ?_, by omega, Frame_trans h4 k3, ?_⟩
    · unfold button_loop
      rw [h1]
      dsimp only
      rw [k1]
      have : min ((if temp < UINT_MAX then temp + 1 else temp) + k) UINT_MAX =
          min (temp + (k + 1)) UINT_MAX := by
        simp only [UINT_MAX] at *
        split_ifs <;> omega
      rw [this]
    · rcases k4 with k4 | k4
      · rcases h5 with h5 | h5
        · exact Or.inl (k4.trans h5)
        · exact Or.inr (k4.trans h5)
      · exact Or.inr k4

/-- The `STATE_BUTTON_PRESS` case with the button read pressed: the state `s2`
in which the press is classified, and the result of the case. -/
lemma case_BUTTON_PRESS_pressed (e : Env) (s : Firmware) (hg : s.GIE ≠ 0)
    (hst : s.state = STATE_BUTTON_PRESS) (hb : e.BUTTON = true)
    (ht : 5 * e.held ≤ ticks e.irq) :
    ∃ s2, s2.state = STATE_BUTTON_PRESS ∧ s2.active_relay = s.active_relay ∧
      s2.I2S_RELAY = 0 ∧ s2.signal_autosearch = s.signal_autosearch ∧
      case_BUTTON_PRESS e s = some
        (if min e.held UINT_MAX < 100 then
          NEXT_STATE { disable_autosearch (next_input s2) with I2S_RELAY := 1 }
        else enable_autosearch s2) := by
  obtain ⟨f1, -, f3, -, -, f6, -⟩ := interrupts_frame e.early s
  have hs0 := interrupts_state_button e.early s hst
  obtain ⟨s2, r, h1, -, h3, h4⟩ :=
    button_loop_total e.held 0 e.irq { interrupts e.early s with I2S_RELAY := 0 }
      (by simpa [f6] using hg) (Nat.zero_le _) ht
  obtain ⟨g1, -, g3, -, g5, -⟩ := h3
  refine ⟨s2, ?_, g1.trans f1, g5, g3.trans f3, ?_⟩
  · rcases h4 with h4 | h4
    · exact h4.trans hs0
    · exact h4
  · unfold case_BUTTON_PRESS
    dsimp only
    rw [if_pos hb, h1]
    dsimp only
    rw [Nat.zero_add]
    split_ifs <;> rfl

/-- C6: a button held for `n` debounce quanta (the loop `while (BUTTON)` runs
`n` times, each time waiting 5 ms) leaves `temp = min n UINT_MAX`, and the test
`temp < 100` that selects the short-press branch holds exactly when `n < 100`;
accordingly the `STATE_BUTTON_PRESS` iteration ends disarmed
(`signal_autosearch = 0`, short press) exactly when `n < 100` and armed
(`signal_autosearch = 1`, long press) for every `n ≥ 100`, however large. -/
theorem C6_press_classification (n : Nat) (e : Env) (s : Firmware)
    (hs : s.state = STATE_BUTTON_PRESS) (hg : s.GIE ≠ 0) (hb : e.BUTTON = true)
    (hn : e.held = n) (ht : 5 * n ≤ ticks e.irq) :
    (∃ t r, button_loop n 0 e.irq s = some (t, min n UINT_MAX, r) ∧
      (min n UINT_MAX < 100 ↔ n < 100)) ∧
    (∃ s1, main_step e s = some s1 ∧
      (s1.signal_autosearch = 0 ↔ n < 100) ∧
      (s1.signal_autosearch = 1 ↔ 100 ≤ n)) := by
  have hcl : min n UINT_MAX < 100 ↔ n < 100 := by
    simp only [UINT_MAX]; omega
  constructor
  · obtain ⟨t, r, h1, -⟩ := button_loop_total n 0 e.irq s hg (Nat.zero_le _) ht
    rw [Nat.zero_add] at h1
    exact ⟨t, r, h1, hcl⟩
  · subst hn
    obtain ⟨s2, -, -, -, -, h5⟩ := case_BUTTON_PRESS_pressed e s hg hs hb ht
    rw [main_step_BUTTON_PRESS e s hs, h5]
    by_cases hc : e.held < 100
    · rw [if_pos (hcl.mpr hc)]
      refine ⟨_, rfl, ?_, ?_⟩
      · simp [NEXT_STATE, disable_autosearch, hc]
      · simp only [NEXT_STATE, disable_autosearch]
        constructor
        · intro h; exact absurd h (by decide)
        · intro h; omega
    · rw [if_neg (fun h => hc (hcl.mp h))]
      have ha : (enable_autosearch s2).signal_autosearch = 1 := by
        unfold enable_autosearch next_input
        dsimp only
        split_ifs <;> rfl
      refine ⟨_, rfl, ?_, ?_⟩
      · rw [ha]
        constructor
        · intro h; exact absurd h (by decide)
        · intro h; exact absurd h hc
      · rw [ha]
        constructor
        · intro _; omega
        · intro _; rfl

/-- C6, witness: a hold of exactly 100 quanta is a long press. -/
theorem C6_press_classification_witness :
    (∃ t r, button_loop 100 0 (press 100).irq pressed_2 = some (t, min 100 UINT_MAX, r) ∧
      (min 100 UINT_MAX < 100 ↔ 100 < 100)) ∧
    (∃ s1, main_step (press 100) pressed_2 = some s1 ∧
      (s1.signal_autosearch = 0 ↔ 100 < 100) ∧
      (s1.signal_autosearch = 1 ↔ 100 ≤ 100)) :=
  C6_press_classification 100 (press 100) pressed_2 rfl (by decide) rfl rfl
    (le_of_eq (ticks_replicate_tick 500).symm)

/-! ## C7: the `STATE_INIT` iteration -/

/-- The requests a non-cancellable wait services are a prefix of the requests
offered to it; the wait returns the others. -/
lemma delayMs_noninteruptable_loop_served (ms : Nat) (irq : List Interrupt) (s t : Firmware)
    (r : List Interrupt) (h : delayMs_noninteruptable_loop ms irq s = some (t, r)) :
    ∃ served, irq = served ++ r ∧ t = interrupts served s := by
  induction irq generalizing s with
  | nil =>
    unfold delayMs_noninteruptable_loop at h
    split_ifs at h
    simp only [Option.some.injEq, Prod.mk.injEq] at h
    exact ⟨[], by rw [← h.2]; rfl, h.1.symm⟩
  | cons i rest ih =>
    unfold delayMs_noninteruptable_loop at h
    split_ifs at h
    · obtain ⟨served, h1, h2⟩ := ih (service i s) h
      exact ⟨i :: served, by rw [h1]; rfl, h2⟩
    · simp only [Option.some.injEq, Prod.mk.injEq] at h
      exact ⟨[], by rw [← h.2]; rfl, h.1.symm⟩

/-- The function `init` with the requests `served` its boot delay services:
`state` is left alone when none of them is a button request and is
`STATE_BUTTON_PRESS` otherwise. -/
lemma init_served (irq : List Interrupt) (s t : Firmware) (r : List Interrupt)
    (h : init irq s = some (t, r)) :
    ∃ served, irq = served ++ r ∧
      (no_button served → t.state = s.state) ∧
      (¬ no_button served → t.state = STATE_BUTTON_PRESS) := by
  unfold init at h
  dsimp only at h
  split at h
  · simp at h
  · rename_i s6 rest hw
    simp only [Option.some.injEq, Prod.mk.injEq] at h
    obtain ⟨rfl, rfl⟩ := h
    unfold delayMs_noninteruptable at hw
    obtain ⟨served, h1, h2⟩ := delayMs_noninteruptable_loop_served _ _ _ _ _ hw
    refine ⟨served, h1, ?_, ?_⟩
    · intro hq
      show s6.state = s.state
      rw [h2, interrupts_quiet served _ hq]
      rfl
    · intro hq
      show s6.state = STATE_BUTTON_PRESS
      rw [h2]
      apply interrupts_button served _ (by simp [write_RELAYS])
      unfold no_button at hq
      push_neg at hq
      obtain ⟨i, hi, hb⟩ := hq
      exact ⟨i, hi, by simpa using hb⟩

/-- The `STATE_INIT` iteration from the reset state, with the requests `served`
its boot delay services and the requests `rest` it leaves. -/
lemma case_INIT_served (e : Env) (p : Nat) (ht : 1000 ≤ ticks e.irq) :
    ∃ served rest t, e.irq = served ++ rest ∧ ticks served = 1000 ∧
      init e.irq (power_on p) = some (t, rest) ∧
      main_step e (power_on p) = some (NEXT_STATE t) ∧
      t.active_relay = p ∧ t.RELAYS = relay_pattern p ∧
      t.signal_autosearch = 0 ∧ t.I2S_RELAY = 1 ∧
      (no_button served → (NEXT_STATE t).state = STATE_SET_RELAY) ∧
      (¬ no_button served → (NEXT_STATE t).state = 4) := by
  obtain ⟨t, r, h1, -, -, -, h5⟩ := init_total e.irq (power_on p) ht
  obtain ⟨-, i2, i3, -, -, i6, i7⟩ := init_relay e.irq (power_on p) t r h1
  obtain ⟨served, k1, k2, k3⟩ := init_served e.irq (power_on p) t r h1
  refine ⟨served, r, t, k1, ?_, h1, ?_, i2, i3, i6, i7, ?_, ?_⟩
  · rw [k1, ticks_append] at h5
    omega
  · rw [main_step_INIT e (power_on p) rfl]
    unfold case_INIT
    dsimp only
    rw [interrupts_GIE_zero e.early (power_on p) rfl, h1]
  · intro hq
    show (t.state + 1) % 256 = STATE_SET_RELAY
    rw [k2 hq]
    rfl
  · intro hq
    show (t.state + 1) % 256 = 4
    rw [k3 hq]
    rfl

/-- C7 (as amended): for every persisted index `p` in [0,4], the
`STATE_INIT` iteration from the reset state, given the 1000 timer ticks of the
boot delay, ends with `active_relay = p`, the relay port showing exactly relay
line `p` active, auto search disarmed and `I2S_RELAY = 1`.  With `served` the
interrupt requests serviced during the iteration (those offered up to the
1000th timer tick of the boot delay; `rest` is what `init` leaves unserviced,
and nothing is serviced before `init` sets `GIE`), it ends with
`state = STATE_SET_RELAY` when no request of `served` is a button request, and
with `state = 4` otherwise. -/
theorem C7_init_step (p : Nat) (hp : p ≤ 4) (e : Env) (ht : 1000 ≤ ticks e.irq) :
    ∃ served rest t s1, e.irq = served ++ rest ∧ ticks served = 1000 ∧
      interrupts e.early (power_on p) = power_on p ∧
      init e.irq (power_on p) = some (t, rest) ∧
      main_step e (power_on p) = some s1 ∧
      s1.active_relay = p ∧
      (∀ k, k < 5 → (relay_active s1.RELAYS k = true ↔ k = p)) ∧
      s1.signal_autosearch = 0 ∧ s1.I2S_RELAY = 1 ∧
      (no_button served → s1.state = STATE_SET_RELAY) ∧
      (¬ no_button served → s1.state = 4) := by
  obtain ⟨served, rest, t, h1, h2, h3, h4, h5, h6, h7, h8, h9, h10⟩ :=
    case_INIT_served e p ht
  refine ⟨served, rest, t, NEXT_STATE t, h1, h2,
    interrupts_GIE_zero e.early (power_on p) rfl, h3, h4, h5, ?_, h7, h8, h9, h10⟩
  intro k hk
  show relay_active t.RELAYS k = true ↔ k = p
  rw [h6]
  exact (relay_pattern_lines p hp k hk).1

/-- C7, witness: booting with 2 in the EEPROM cell; with a quiet boot delay the
iteration ends in `STATE_SET_RELAY`, with a button request at the start of the
boot delay it ends with `state = 4`. -/
theorem C7_init_step_witness :
    (∃ s1, main_step (quiet (List.replicate 1000 tick)) (power_on 2) = some s1 ∧
      s1.active_relay = 2 ∧
      (∀ k, k < 5 → (relay_active s1.RELAYS k = true ↔ k = 2)) ∧
      s1.signal_autosearch = 0 ∧ s1.I2S_RELAY = 1 ∧ s1.state = STATE_SET_RELAY) ∧
    (∃ s1, main_step (quiet (button_irq :: List.replicate 1000 tick)) (power_on 2) = some s1 ∧
      s1.active_relay = 2 ∧
      (∀ k, k < 5 → (relay_active s1.RELAYS k = true ↔ k = 2)) ∧
      s1.signal_autosearch = 0 ∧ s1.I2S_RELAY = 1 ∧ s1.state = 4) := by
  constructor
  · obtain ⟨served, rest, t, s1, h1, -, -, -, h4, h5, h6, h7, h8, h9, -⟩ :=
      C7_init_step 2 (by decide) (quiet (List.replicate 1000 tick))
        (le_of_eq (ticks_replicate_tick 1000).symm)
    have hq : no_button served := by
      intro i hi
      have hm : i ∈ List.replicate 1000 tick := by
        have h1a : List.replicate 1000 tick = served ++ rest := h1
        rw [h1a]
        exact List.mem_append_left rest hi
      rw [List.eq_of_mem_replicate hm]
      rfl
    exact ⟨s1, h4, h5, h6, h7, h8, h9 hq⟩
  · obtain ⟨served, rest, t, s1, h1, h2, -, -, h4, h5, h6, h7, h8, -, h10⟩ :=
      C7_init_step 2 (by decide) (quiet (button_irq :: List.replicate 1000 tick))
        (by
          show 1000 ≤ ticks (button_irq :: List.replicate 1000 tick)
          rw [ticks_cons, ticks_replicate_tick]
          omega)
    have hq : ¬ no_button served := by
      intro hq
      have h1a : button_irq :: List.replicate 1000 tick = served ++ rest := h1
      cases served with
      | nil => exact absurd h2 (by rw [ticks_nil]; omega)
      | cons j more =>
        rw [List.cons_append] at h1a
        have hj : j = button_irq := (List.cons.inj h1a).1.symm
        have := hq j (List.mem_cons_self j more)
        rw [hj] at this
        exact absurd this (by decide)
    exact ⟨s1, h4, h5, h6, h7, h8, h10 hq⟩

set_option maxRecDepth 100000 in
/-- C7, counterexample to the claim as stated: with 2 in the EEPROM cell and a
button request serviced during the boot delay, the `STATE_INIT` iteration ends
with `state = 4`, not `STATE_SET_RELAY`. -/
theorem C7_button_during_boot_delay :
    main_step (quiet (button_irq :: List.replicate 1000 tick)) (power_on 2) =
      some booted_2_button ∧
    booted_2_button.state ≠ STATE_SET_RELAY := by
  decide

/-! ## C8, C9, C10: the `STATE_BUTTON_PRESS` iteration -/

lemma enable_autosearch_button (s : Firmware) (h : s.state = STATE_BUTTON_PRESS) :
    (enable_autosearch s).state = STATE_BUTTON_PRESS ∧
    (enable_autosearch s).signal_autosearch = 1 ∧
    (enable_autosearch s).I2S_RELAY = s.I2S_RELAY ∧
    (enable_autosearch s).active_relay =
      (next_input { s with signal_autosearch := 1 }).active_relay := by
  unfold enable_autosearch
  dsimp only
  rw [if_neg (by rw [next_input_state]; simp [h])]
  refine ⟨by rw [next_input_state]; exact h, ?_, ?_, rfl⟩
  · unfold next_input; split_ifs <;> rfl
  · unfold next_input; split_ifs <;> rfl

/-- C8: for every active index `a` in [0,4] and every press of `n < 100`
debounce quanta, the `STATE_BUTTON_PRESS` iteration with the button read as
pressed (and the timer ticks its `n` waits of 5 ms need) ends with
`active_relay = (a + 1) mod 5`, `signal_autosearch = 0` and `I2S_RELAY = 1`. -/
theorem C8_short_press (a n : Nat) (ha : a ≤ 4) (hn : n < 100) (e : Env) (s : Firmware)
    (hs : s.state = STATE_BUTTON_PRESS) (hg : s.GIE ≠ 0) (hact : s.active_relay = a)
    (hb : e.BUTTON = true) (hh : e.held = n) (ht : 5 * n ≤ ticks e.irq) :
    ∃ s1, main_step e s = some s1 ∧ s1.active_relay = (a + 1) % 5 ∧
      s1.signal_autosearch = 0 ∧ s1.I2S_RELAY = 1 := by
  subst hh
  obtain ⟨s2, -, h2, -, -, h5⟩ := case_BUTTON_PRESS_pressed e s hg hs hb ht
  rw [main_step_BUTTON_PRESS e s hs, h5, if_pos (by simp only [UINT_MAX]; omega)]
  refine ⟨_, rfl, ?_, rfl, rfl⟩
  show (next_input s2).active_relay = (a + 1) % 5
  rw [next_input_eq s2 (by omega), h2, hact]

/-- C8, witness: input 2 active, a press of 50 quanta; input 3 is selected. -/
theorem C8_short_press_witness :
    ∃ s1, main_step (press 50) pressed_2 = some s1 ∧ s1.active_relay = (2 + 1) % 5 ∧
      s1.signal_autosearch = 0 ∧ s1.I2S_RELAY = 1 :=
  C8_short_press 2 50 (by decide) (by decide) (press 50) pressed_2 rfl (by decide) rfl rfl rfl
    (le_of_eq (ticks_replicate_tick 250).symm)

/-- C9: for every active index `a` in [0,4] and every press of `n ≥ 100`
debounce quanta, the `STATE_BUTTON_PRESS` iteration (given the timer ticks its
`n` waits of 5 ms need) ends with `signal_autosearch = 1`,
`active_relay = (a + 1) mod 5` and `I2S_RELAY = 0`. -/
theorem C9_long_press (a n : Nat) (ha : a ≤ 4) (hn : 100 ≤ n) (e : Env) (s : Firmware)
    (hs : s.state = STATE_BUTTON_PRESS) (hg : s.GIE ≠ 0) (hact : s.active_relay = a)
    (hb : e.BUTTON = true) (hh : e.held = n) (ht : 5 * n ≤ ticks e.irq) :
    ∃ s1, main_step e s = some s1 ∧ s1.signal_autosearch = 1 ∧
      s1.active_relay = (a + 1) % 5 ∧ s1.I2S_RELAY = 0 := by
  subst hh
  obtain ⟨s2, h1, h2, h3, -, h5⟩ := case_BUTTON_PRESS_pressed e s hg hs hb ht
  obtain ⟨-, k2, k3, k4⟩ := enable_autosearch_button s2 h1
  rw [main_step_BUTTON_PRESS e s hs, h5, if_neg (by simp only [UINT_MAX]; omega)]
  refine ⟨_, rfl, k2, ?_, k3.trans h3⟩
  rw [k4, next_input_eq _ (by show s2.active_relay ≤ 4; omega)]
  show (s2.active_relay + 1) % 5 = (a + 1) % 5
  rw [h2, hact]

/-- C9, witness: input 2 active, a press of 120 quanta; auto search is armed on
input 3. -/
theorem C9_long_press_witness :
    ∃ s1, main_step (press 120) pressed_2 = some s1 ∧ s1.signal_autosearch = 1 ∧
      s1.active_relay = (2 + 1) % 5 ∧ s1.I2S_RELAY = 0 :=
  C9_long_press 2 120 (by decide) (by decide) (press 120) pressed_2 rfl (by decide) rfl rfl
    rfl (le_of_eq (ticks_replicate_tick 600).symm)

/-- C10 (as amended): a `STATE_BUTTON_PRESS` iteration ends with `state = 4`
(`NEXT_STATE` applied to `STATE_BUTTON_PRESS`) when the button reads released
on entry and after a short press, and with `state = STATE_BUTTON_PRESS` after a
long press (the guard of `enable_autosearch` keeps it); from `state = 4` the
next iteration of the main loop, the `default` case, sets
`state = STATE_SET_RELAY`. -/
theorem C10_button_press_next_state (e : Env) (s : Firmware)
    (hs : s.state = STATE_BUTTON_PRESS) :
    (e.BUTTON = false → ∃ s1, main_step e s = some s1 ∧ s1.state = 4) ∧
    (e.BUTTON = true → s.GIE ≠ 0 → 5 * e.held ≤ ticks e.irq → e.held < 100 →
      ∃ s1, main_step e s = some s1 ∧ s1.state = 4) ∧
    (e.BUTTON = true → s.GIE ≠ 0 → 5 * e.held ≤ ticks e.irq → 100 ≤ e.held →
      ∃ s1, main_step e s = some s1 ∧ s1.state = STATE_BUTTON_PRESS) ∧
    (∀ (e2 : Env) (s1 : Firmware), s1.state = 4 →
      ∃ s2, main_step e2 s1 = some s2 ∧ s2.state = STATE_SET_RELAY) := by
  refine ⟨?_, ?_, ?_, ?_⟩
  · intro hb
    have h0 := interrupts_state_button e.early s hs
    rw [main_step_BUTTON_PRESS e s hs]
    unfold case_BUTTON_PRESS
    dsimp only
    rw [if_neg (by simp [hb])]
    refine ⟨_, rfl, ?_⟩
    simp only [NEXT_STATE, h0, STATE_BUTTON_PRESS]
  · intro hb hg ht hn
    obtain ⟨s2, h1, -, -, -, h5⟩ := case_BUTTON_PRESS_pressed e s hg hs hb ht
    rw [main_step_BUTTON_PRESS e s hs, h5, if_pos (by simp only [UINT_MAX]; omega)]
    refine ⟨_, rfl, ?_⟩
    simp only [NEXT_STATE, disable_autosearch, next_input_state, h1, STATE_BUTTON_PRESS]
  · intro hb hg ht hn
    obtain ⟨s2, h1, -, -, -, h5⟩ := case_BUTTON_PRESS_pressed e s hg hs hb ht
    rw [main_step_BUTTON_PRESS e s hs, h5, if_neg (by simp only [UINT_MAX]; omega)]
    exact ⟨_, rfl, (enable_autosearch_button s2 h1).1⟩
  · intro e2 s1 h4
    rw [main_step_default e2 s1 (by omega)]
    exact ⟨_, rfl, rfl⟩

/-- C10, witness: the three branches in `pressed_2`, and the `default` case
after them. -/
theorem C10_button_press_next_state_witness :
    (∃ s1, main_step (quiet []) pressed_2 = some s1 ∧ s1.state = 4) ∧
    (∃ s1, main_step (press 50) pressed_2 = some s1 ∧ s1.state = 4) ∧
    (∃ s1, main_step (press 120) pressed_2 = some s1 ∧ s1.state = STATE_BUTTON_PRESS) ∧
    (∃ s2, main_step (quiet []) after_short_press = some s2 ∧ s2.state = STATE_SET_RELAY) :=
  ⟨(C10_button_press_next_state (quiet []) pressed_2 rfl).1 rfl,
    (C10_button_press_next_state (press 50) pressed_2 rfl).2.1 rfl (by decide)
      (le_of_eq (ticks_replicate_tick 250).symm) (by decide),
    (C10_button_press_next_state (press 120) pressed_2 rfl).2.2.1 rfl (by decide)
      (le_of_eq (ticks_replicate_tick 600).symm) (by decide),
    (C10_button_press_next_state (quiet []) pressed_2 rfl).2.2.2 (quiet []) after_short_press
      rfl⟩

set_option maxRecDepth 100000 in
/-- C10, counterexample to the claim as stated: in `pressed_2` none of the three
branches ends with `state = STATE_SET_RELAY`; the released branch and a short
press of 50 quanta end with `state = 4`, a long press of 120 quanta ends with
`state = STATE_BUTTON_PRESS`. -/
theorem C10_button_press_not_set_relay :
    (main_step (quiet []) pressed_2 = some after_no_press ∧
      after_no_press.state ≠ STATE_SET_RELAY) ∧
    (main_step (press 50) pressed_2 = some after_short_press ∧
      after_short_press.state ≠ STATE_SET_RELAY) ∧
    (main_step (press 120) pressed_2 = some after_long_press ∧
      after_long_press.state ≠ STATE_SET_RELAY) := by
  decide

/-! ## The armed auto search without cancellation -/

lemma delayMs_quiet (ms : Nat) (hms : ms ≤ ULONG_MAX) (irq : List Interrupt) (s : Firmware)
    (hg : s.GIE ≠ 0) (hst : s.state ≠ STATE_BUTTON_PRESS) (hq : no_button irq)
    (ht : ms ≤ ticks irq) :
    ∃ t r, delayMs ms irq s = some (t, r) ∧ t.milliseconds = ms ∧
      ticks r + ms = ticks irq ∧ no_button r ∧ t.state = s.state ∧ Frame s t := by
  obtain ⟨t, r, h1, h2, h3, h4, -⟩ := delayMs_total ms hms irq s hg ht
  obtain ⟨h5, h6⟩ := delayMs_loop_quiet ms irq _ t r hq h1
  have h7 : t.state = s.state := h5
  have h8 : t.milliseconds = ms := by
    rcases h3 with h3 | h3
    · exact h3
    · exact absurd (h7.symm.trans h3) hst
  exact ⟨t, r, h1, h8, by omega, h6, h7, h4⟩

/-- The loops of the waits preserve whatever every serviced request preserves. -/
lemma delayMs_loop_inv (P : Firmware → Prop) (hP : ∀ i s, P s → P (service i s))
    (ms : Nat) (irq : List Interrupt) (s t : Firmware) (r : List Interrupt)
    (h : delayMs_loop ms irq s = some (t, r)) (hs : P s) : P t := by
  induction irq generalizing s with
  | nil =>
    unfold delayMs_loop at h
    split_ifs at h
    simp only [Option.some.injEq, Prod.mk.injEq] at h
    rw [← h.1]
    exact hs
  | cons i rest ih =>
    unfold delayMs_loop at h
    split_ifs at h
    · exact ih (service i s) h (hP i s hs)
    · simp only [Option.some.injEq, Prod.mk.injEq] at h
      rw [← h.1]
      exact hs

lemma interrupts_inv (P : Firmware → Prop) (hP : ∀ i s, P s → P (service i s))
    (irq : List Interrupt) (s : Firmware) (hs : P s) : P (interrupts irq s) := by
  induction irq generalizing s with
  | nil => exact hs
  | cons i rest ih => exact ih (service i s) (hP i s hs)

lemma service_milliseconds_le (i : Interrupt) (s : Firmware) (ms : Nat)
    (h : s.milliseconds < ms) : (service i s).milliseconds ≤ ms := by
  unfold service
  split_ifs
  · rw [ISR_milliseconds]
    split_ifs <;> omega
  · omega

lemma delayMs_loop_le (ms : Nat) (irq : List Interrupt) (s t : Firmware)
    (r : List Interrupt) (h : delayMs_loop ms irq s = some (t, r))
    (hs : s.milliseconds ≤ ms) : t.milliseconds ≤ ms := by
  induction irq generalizing s with
  | nil =>
    unfold delayMs_loop at h
    split_ifs at h
    simp only [Option.some.injEq, Prod.mk.injEq] at h
    rw [← h.1]
    exact hs
  | cons i rest ih =>
    unfold delayMs_loop at h
    split_ifs at h with hc
    · exact ih (service i s) h (service_milliseconds_le i s ms hc.1)
    · simp only [Option.some.injEq, Prod.mk.injEq] at h
      rw [← h.1]
      exact hs

/-- A wait given enough ticks, whatever the requests: it returns, leaves enough
ticks for what follows, and `state` is as before or `STATE_BUTTON_PRESS`. -/
lemma delayMs_any (ms : Nat) (hms : ms ≤ ULONG_MAX) (irq : List Interrupt) (s : Firmware)
    (hg : s.GIE ≠ 0) (ht : ms ≤ ticks irq) :
    ∃ t r, delayMs ms irq s = some (t, r) ∧ ticks irq ≤ ticks r + ms ∧
      (t.milliseconds = ms ∨ t.state = STATE_BUTTON_PRESS) ∧ Frame s t ∧
      (t.state = s.state ∨ t.state = STATE_BUTTON_PRESS) ∧
      (no_button irq → t.state = s.state ∧ no_button r) := by
  obtain ⟨t, r, h1, h2, h3, h4, h5⟩ := delayMs_total ms hms irq s hg ht
  have h6 : t.milliseconds ≤ ms := delayMs_loop_le ms irq _ t r h1 (Nat.zero_le _)
  refine ⟨t, r, h1, by omega, h3, h4, h5, ?_⟩
  intro hq
  have h7 : delayMs_loop ms irq { s with milliseconds := 0 } = some (t, r) := h1
  exact delayMs_loop_quiet ms irq { s with milliseconds := 0 } t r hq h7

lemma service_window (i : Interrupt) (s : Firmware)
    (h : s.RBIE = 1 ∨ 10 < s.signal_pulses) :
    (service i s).RBIE = 1 ∨ 10 < (service i s).signal_pulses := by
  unfold service
  split_ifs
  · rw [ISR_RBIE, ISR_signal_pulses]
    split_ifs <;> omega
  · exact h

/-- The armed auto search with a locked receiver, whatever the requests: the
state `s2` in which the pulse count is tested and the result of the case. -/
lemma case_AUTO_SEARCH_locked (e : Env) (s : Firmware) (hg : s.GIE ≠ 0)
    (ha : s.signal_autosearch ≠ 0) (hl : e.CS8412_LOCK = true) (ht : 110 ≤ ticks e.irq) :
    ∃ s1 s2,
      sample_window e s = some s2 ∧
      Frame s s1 ∧ Frame (enable_pulse_count s1) s2 ∧
      (s2.state = s.state ∨ s2.state = STATE_BUTTON_PRESS) ∧
      (no_button e.early → no_button e.irq → no_button e.before_test →
        s2.state = s.state) ∧
      (s2.RBIE = 1 ∨ 10 < s2.signal_pulses) ∧
      case_AUTO_SEARCH e s =
        some (leave_search (interrupts e.after_test (confirm_or_next s2))) := by
  have f0 := interrupts_frame e.early s
  have hg0 : (interrupts e.early s).GIE ≠ 0 := by rw [f0.2.2.2.2.2.1]; exact hg
  obtain ⟨s1, rest, h1, h2, -, h4, h5, h6⟩ :=
    delayMs_any 100 (by decide) e.irq (interrupts e.early s) hg0 (by omega)
  have hg1 : (enable_pulse_count s1).GIE ≠ 0 := by
    show s1.GIE ≠ 0
    rw [h4.2.2.2.2.2.1]; exact hg0
  obtain ⟨w, rest2, k1, -, -, k4, k5, k6⟩ :=
    delayMs_any 10 (by decide) rest (enable_pulse_count s1) hg1 (by omega)
  have k5a : w.state = s1.state ∨ w.state = STATE_BUTTON_PRESS := k5
  have hw0 : w.RBIE = 1 ∨ 10 < w.signal_pulses :=
    delayMs_loop_inv (fun t => t.RBIE = 1 ∨ 10 < t.signal_pulses) service_window 10 rest
      { enable_pulse_count s1 with milliseconds := 0 } w rest2 k1 (Or.inl rfl)
  have hw1 : (interrupts e.before_test w).RBIE = 1 ∨
      10 < (interrupts e.before_test w).signal_pulses :=
    interrupts_inv (fun t => t.RBIE = 1 ∨ 10 < t.signal_pulses) service_window
      e.before_test w hw0
  have hsw : w.state = s.state ∨ w.state = STATE_BUTTON_PRESS := by
    rcases k5a with k | k
    · rcases h5 with h | h
      · rcases interrupts_state e.early s with g | g
        · exact Or.inl (k.trans (h.trans g))
        · exact Or.inr (k.trans (h.trans g))
      · exact Or.inr (k.trans h)
    · exact Or.inr k
  refine ⟨s1, interrupts e.before_test w, ?_, Frame_trans f0 h4,
    Frame_trans k4 (interrupts_frame e.before_test w), ?_, ?_, hw1, ?_⟩
  · unfold sample_window
    rw [h1]
    dsimp only
    rw [k1]
  · rcases interrupts_state e.before_test w with k | k
    · rcases hsw with g | g
      · exact Or.inl (k.trans g)
      · exact Or.inr (k.trans g)
    · exact Or.inr k
  · intro he hq hbt
    obtain ⟨a1, a2⟩ := h6 hq
    have b1 : w.state = s1.state := (k6 a2).1
    exact (interrupts_quiet e.before_test w hbt).trans
      (b1.trans (a1.trans (interrupts_quiet e.early s he)))
  · exact case_AUTO_SEARCH_eq e s s1 _ rest ha h1
      (by rw [hl]; exact search_input_eq rest e.before_test s1 w rest2 k1)

set_option maxRecDepth 100000 in
lemma sample_window_15_edges :
    sample_window locked_15_edges searching_2 = some window_15_edges := by
  decide

/-- C11: in an armed `STATE_AUTO_SEARCH` iteration in which no button request is
serviced and `CS8412_LOCK` reads locked (given the 110 timer ticks of the two
waits), let `s2` be the state in which `signal_pulses > 10` is tested after the
10 ms window.  If `s2.signal_pulses > 10` the iteration clears
`signal_autosearch`, sets `I2S_RELAY = 1`, leaves `active_relay` unchanged and
ends with `state = STATE_SET_RELAY`; if `s2.signal_pulses ≤ 10` it leaves
`signal_autosearch` and `I2S_RELAY` as they were, advances `active_relay` to
`(a + 1) mod 5` and ends with `state = STATE_SET_RELAY`. -/
theorem C11_locked_window (a : Nat) (ha4 : a ≤ 4) (e : Env) (s : Firmware)
    (hs : s.state = STATE_AUTO_SEARCH) (hg : s.GIE ≠ 0) (harm : s.signal_autosearch ≠ 0)
    (hact : s.active_relay = a) (hl : e.CS8412_LOCK = true)
    (he : no_button e.early) (hq : no_button e.irq) (hbt : no_button e.before_test)
    (hat : no_button e.after_test) (ht : 110 ≤ ticks e.irq) :
    ∃ s2 t, sample_window e s = some s2 ∧ main_step e s = some t ∧
      (s2.signal_pulses > 10 →
        t.signal_autosearch = 0 ∧ t.I2S_RELAY = 1 ∧ t.active_relay = a ∧
        t.state = STATE_SET_RELAY) ∧
      (s2.signal_pulses ≤ 10 →
        t.signal_autosearch = s.signal_autosearch ∧ t.signal_autosearch ≠ 0 ∧
        t.I2S_RELAY = s.I2S_RELAY ∧ t.active_relay = (a + 1) % 5 ∧
        t.state = STATE_SET_RELAY) := by
  obtain ⟨s1, s2, h3, h4, h5, -, h7, -, h8⟩ := case_AUTO_SEARCH_locked e s hg harm hl ht
  have hst : s2.state = STATE_AUTO_SEARCH := (h7 he hq hbt).trans hs
  obtain ⟨f1, -, f3, -, f5, -⟩ := h4
  obtain ⟨g1, -, g3, -, g5, -⟩ := h5
  simp only [enable_pulse_count] at g1 g3 g5
  obtain ⟨m1, -, m3, -, m5, -⟩ := interrupts_frame e.after_test (confirm_or_next s2)
  obtain ⟨⟨n1, -, n3, -, n5, -⟩, -⟩ :=
    leave_search_fields (interrupts e.after_test (confirm_or_next s2))
  have hstate : (leave_search (interrupts e.after_test (confirm_or_next s2))).state =
      STATE_SET_RELAY := by
    rw [leave_search_state, interrupts_quiet _ _ hat, confirm_or_next_state, hst]
    rfl
  rw [main_step_AUTO_SEARCH e s hs, h8]
  refine ⟨s2, _, h3, rfl, ?_, ?_⟩
  · intro hp
    refine ⟨?_, ?_, ?_, hstate⟩
    · rw [n3, m3, confirm_or_next_pos s2 hp]; rfl
    · rw [n5, m5, confirm_or_next_pos s2 hp]
    · rw [n1, m1, confirm_or_next_pos s2 hp]
      show s2.active_relay = a
      rw [g1, f1, hact]
  · intro hp
    have e3 : (next_input s2).active_relay = (a + 1) % 5 := by
      rw [next_input_eq s2 (by rw [g1, f1, hact]; exact ha4), g1, f1, hact]
    have e4 : (next_input s2).signal_autosearch = s.signal_autosearch := by
      rw [next_input_signal_autosearch, g3, f3]
    have hn := confirm_or_next_neg s2 (by omega)
    refine ⟨?_, ?_, ?_, ?_, hstate⟩
    · rw [n3, m3, hn]; exact e4
    · rw [n3, m3, hn, e4]; exact harm
    · rw [n5, m5, hn, next_input_I2S_RELAY, g5, f5]
    · rw [n1, m1, hn]; exact e3

set_option maxRecDepth 100000 in
/-- C11, witness: input 2 is being searched, the receiver is locked and 15 level
changes arrive in the window; the count stops at 11 and input 2 is confirmed. -/
theorem C11_locked_window_witness :
    ∃ t, main_step locked_15_edges searching_2 = some t ∧
      t.signal_autosearch = 0 ∧ t.I2S_RELAY = 1 ∧ t.active_relay = 2 ∧
      t.state = STATE_SET_RELAY := by
  obtain ⟨s2, t, h1, h2, h3, -⟩ :=
    C11_locked_window 2 (by decide) locked_15_edges searching_2 rfl (by decide) (by decide)
      rfl rfl (by decide) (by decide) (by decide) (by decide) (by decide)
  rw [sample_window_15_edges] at h1
  simp only [Option.some.injEq] at h1
  subst h1
  exact ⟨t, h2, h3 (by decide)⟩

/-! ## C12: searching without a lock -/

/-- The armed auto search with an unlocked receiver and no button request. -/
lemma main_step_unlocked_quiet (e : Env) (s : Firmware) (hs : s.state = STATE_AUTO_SEARCH)
    (hg : s.GIE ≠ 0) (harm : s.signal_autosearch ≠ 0) (ha : s.active_relay ≤ 4)
    (hl : e.CS8412_LOCK = false)
    (he : no_button e.early) (hq : no_button e.irq) (ht : 100 ≤ ticks e.irq)
    (hat : no_button e.after_test) :
    ∃ t, main_step e s = some t ∧ t.state = STATE_SET_RELAY ∧
      t.active_relay = (s.active_relay + 1) % 5 ∧
      t.signal_autosearch = s.signal_autosearch ∧ t.I2S_RELAY = s.I2S_RELAY ∧
      t.GIE = s.GIE := by
  obtain ⟨f1, -, f3, -, f5, f6, -⟩ := interrupts_frame e.early s
  have hs0 : (interrupts e.early s).state = STATE_AUTO_SEARCH :=
    (interrupts_quiet e.early s he).trans hs
  obtain ⟨s1, rest, h1, -, -, -, h5, g1, -, g3, -, g5, g6, -⟩ :=
    delayMs_quiet 100 (by decide) e.irq (interrupts e.early s) (by rw [f6]; exact hg)
      (by rw [hs0]; decide) hq ht
  obtain ⟨m1, -, m3, -, m5, m6, -⟩ := interrupts_frame e.after_test (next_input s1)
  obtain ⟨⟨n1, -, n3, -, n5, n6, -⟩, -⟩ :=
    leave_search_fields (interrupts e.after_test (next_input s1))
  rw [main_step_AUTO_SEARCH e s hs,
    case_AUTO_SEARCH_eq e s s1 (next_input s1) rest harm h1
      (by rw [hl]; exact search_input_unlocked rest e.before_test s1)]
  refine ⟨_, rfl, ?_, ?_, ?_, ?_, ?_⟩
  · rw [leave_search_state, interrupts_quiet _ _ hat, next_input_state, h5, hs0]
    rfl
  · rw [n1, m1, next_input_eq s1 (by rw [g1, f1]; exact ha), g1, f1]
  · rw [n3, m3, next_input_signal_autosearch, g3, f3]
  · rw [n5, m5, next_input_I2S_RELAY, g5, f5]
  · rw [n6, m6, next_input_GIE, g6, f6]

/-- The `STATE_SET_RELAY` iteration without a button request. -/
lemma main_step_SET_RELAY_quiet (e : Env) (s : Firmware) (hs : s.state = STATE_SET_RELAY)
    (he : no_button e.early) :
    ∃ t, main_step e s = some t ∧ t.state = STATE_AUTO_SEARCH ∧
      t.active_relay = s.active_relay ∧
      t.signal_autosearch = s.signal_autosearch ∧ t.I2S_RELAY = s.I2S_RELAY ∧
      t.GIE = s.GIE ∧ t.non_volatile_active_relay = s.active_relay := by
  obtain ⟨f1, -, f3, -, f5, f6, -⟩ := interrupts_frame e.early s
  have hs0 : (interrupts e.early s).state = STATE_SET_RELAY :=
    (interrupts_quiet e.early s he).trans hs
  rw [main_step_SET_RELAY e s hs]
  unfold case_SET_RELAY
  dsimp only
  rw [if_pos (by rw [set_relay_state, hs0]; decide)]
  refine ⟨_, rfl, ?_, ?_, ?_, ?_, ?_, ?_⟩
  · simp only [NEXT_STATE, set_relay_state, hs0, STATE_SET_RELAY, STATE_AUTO_SEARCH]
  · simp only [NEXT_STATE, set_relay_active_relay, f1]
  · simp only [NEXT_STATE, set_relay_signal_autosearch, f3]
  · simp only [NEXT_STATE, set_relay_I2S_RELAY, f5]
  · simp only [NEXT_STATE, set_relay_GIE, f6]
  · simp only [NEXT_STATE, set_relay_nv, f1]

lemma search_rounds_unlocked (a : Nat) (ha : a ≤ 4) (envs : Nat → Env × Env) (s : Firmware)
    (hs : s.state = STATE_AUTO_SEARCH) (hg : s.GIE ≠ 0) (harm : s.signal_autosearch ≠ 0)
    (hact : s.active_relay = a)
    (henv : ∀ j, (envs j).1.CS8412_LOCK = false ∧ no_button (envs j).1.early ∧
      no_button (envs j).1.irq ∧ 100 ≤ ticks (envs j).1.irq ∧
      no_button (envs j).1.after_test ∧ no_button (envs j).2.early)
    (k : Nat) :
    ∃ t, search_rounds envs k s = some t ∧ t.active_relay = (a + k) % 5 ∧
      t.signal_autosearch = s.signal_autosearch ∧ t.I2S_RELAY = s.I2S_RELAY ∧
      t.state = STATE_AUTO_SEARCH ∧ t.GIE = s.GIE := by
  induction k with
  | zero =>
    refine ⟨s, rfl, ?_, rfl, rfl, hs, rfl⟩
    rw [hact]; omega
  | succ n ih =>
    obtain ⟨t, h1, h2, h3, h4, h5, h6⟩ := ih
    obtain ⟨e1, e2, e3, e4, e6, e5⟩ := henv n
    obtain ⟨u, u1, u2, u3, u4, u5, u6⟩ :=
      main_step_unlocked_quiet (envs n).1 t h5 (by rw [h6]; exact hg)
        (by rw [h3]; exact harm) (by rw [h2]; omega) e1 e2 e3 e4 e6
    obtain ⟨v, v1, v2, v3, v4, v5, v6, -⟩ := main_step_SET_RELAY_quiet (envs n).2 u u2 e5
    refine ⟨v, ?_, ?_, v4.trans (u4.trans h3), v5.trans (u5.trans h4), v2,
      v6.trans (u6.trans h6)⟩
    · show (match search_rounds envs n s with
        | none => none
        | some t =>
          match main_step (envs n).1 t with
          | none => none
          | some u => main_step (envs n).2 u) = some v
      rw [h1]
      dsimp only
      rw [u1]
      dsimp only
      exact v1
    · rw [v3, u3, h2]
      omega

/-- C12: start armed in `STATE_AUTO_SEARCH` with active index `a` in [0,4] and
`I2S_RELAY = 0`; let every round consist of a `STATE_AUTO_SEARCH` iteration in
which `CS8412_LOCK` reads unlocked followed by a `STATE_SET_RELAY` iteration,
with no button request serviced and the 100 timer ticks of each settle wait.
Then for every `k` the state after `k` rounds, and the state between the two
iterations of round `k`, exist, are armed with `I2S_RELAY = 0`, and have
`active_relay = (a + k) mod 5` and `(a + k + 1) mod 5`; and among any 5
consecutive round counts every one of the five inputs is the active one once. -/
theorem C12_search_cycles (a : Nat) (ha : a ≤ 4) (envs : Nat → Env × Env) (s : Firmware)
    (hs : s.state = STATE_AUTO_SEARCH) (hg : s.GIE ≠ 0) (harm : s.signal_autosearch ≠ 0)
    (hact : s.active_relay = a) (hmute : s.I2S_RELAY = 0)
    (henv : ∀ j, (envs j).1.CS8412_LOCK = false ∧ no_button (envs j).1.early ∧
      no_button (envs j).1.irq ∧ 100 ≤ ticks (envs j).1.irq ∧
      no_button (envs j).1.after_test ∧ no_button (envs j).2.early) :
    (∀ k, ∃ t u, search_rounds envs k s = some t ∧ t.active_relay = (a + k) % 5 ∧
      t.signal_autosearch ≠ 0 ∧ t.I2S_RELAY = 0 ∧ t.state = STATE_AUTO_SEARCH ∧
      main_step (envs k).1 t = some u ∧ u.active_relay = (a + k + 1) % 5 ∧
      u.signal_autosearch ≠ 0 ∧ u.I2S_RELAY = 0 ∧ u.state = STATE_SET_RELAY) ∧
    (∀ j target, target ≤ 4 → ∃ k t, j ≤ k ∧ k < j + 5 ∧
      search_rounds envs k s = some t ∧ t.active_relay = target) := by
  constructor
  · intro k
    obtain ⟨t, h1, h2, h3, h4, h5, h6⟩ :=
      search_rounds_unlocked a ha envs s hs hg harm hact henv k
    obtain ⟨e1, e2, e3, e4, e6, -⟩ := henv k
    obtain ⟨u, u1, u2, u3, u4, u5, -⟩ :=
      main_step_unlocked_quiet (envs k).1 t h5 (by rw [h6]; exact hg)
        (by rw [h3]; exact harm) (by rw [h2]; omega) e1 e2 e3 e4 e6
    refine ⟨t, u, h1, h2, by rw [h3]; exact harm, h4.trans hmute, h5, u1, ?_,
      by rw [u4, h3]; exact harm, u5.trans (h4.trans hmute), u2⟩
    rw [u3, h2]
    omega
  · intro j target htar
    obtain ⟨t, h1, h2, -⟩ :=
      search_rounds_unlocked a ha envs s hs hg harm hact henv
        (j + (target + 5 - (a + j) % 5) % 5)
    refine ⟨_, t, by omega, by omega, h1, ?_⟩
    rw [h2]
    omega

set_option maxRecDepth 100000 in
/-- C12, witness: from `searching_2` (input 2) with rounds that see only timer
ticks, three rounds lead to input 0 and some count from 7 to 11 selects input
4. -/
theorem C12_search_cycles_witness :
    (∃ t u, search_rounds unlocked_rounds 3 searching_2 = some t ∧
      t.active_relay = (2 + 3) % 5 ∧
      t.signal_autosearch ≠ 0 ∧ t.I2S_RELAY = 0 ∧ t.state = STATE_AUTO_SEARCH ∧
      main_step (unlocked_rounds 3).1 t = some u ∧ u.active_relay = (2 + 3 + 1) % 5 ∧
      u.signal_autosearch ≠ 0 ∧ u.I2S_RELAY = 0 ∧ u.state = STATE_SET_RELAY) ∧
    (∃ k t, 7 ≤ k ∧ k < 7 + 5 ∧
      search_rounds unlocked_rounds k searching_2 = some t ∧ t.active_relay = 4) :=
  have h := C12_search_cycles 2 (by decide) unlocked_rounds searching_2 rfl (by decide)
    (by decide) rfl rfl
    (fun _ => ⟨rfl, (by decide : no_button ([] : List Interrupt)),
      (by decide : no_button (List.replicate 100 tick)),
      le_of_eq (ticks_replicate_tick 100).symm,
      (by decide : no_button ([] : List Interrupt)),
      (by decide : no_button ([] : List Interrupt))⟩)
  ⟨h.1 3, h.2 7 4 (by decide)⟩

/-! ## C13: cancellation during the settle wait -/

lemma service_RBIE (c : Nat) (i : Interrupt) (s : Firmware)
    (h : s.RBIE = c ∨ s.RBIE = 0) : (service i s).RBIE = c ∨ (service i s).RBIE = 0 := by
  unfold service
  split_ifs
  · rw [ISR_RBIE]
    split_ifs
    · exact Or.inr rfl
    · exact h
    · exact h
    · exact h
  · exact h

/-- From the statement after the test to the end of the armed auto search:
the requests `l` are serviced and `state` is written. -/
lemma after_test_fields (l : List Interrupt) (x : Firmware) :
    (leave_search (interrupts l x)).active_relay = x.active_relay ∧
    (leave_search (interrupts l x)).signal_autosearch = x.signal_autosearch ∧
    (leave_search (interrupts l x)).I2S_RELAY = x.I2S_RELAY ∧
    (leave_search (interrupts l x)).pulse_resets = x.pulse_resets ∧
    (∀ c, x.RBIE = c ∨ x.RBIE = 0 →
      (leave_search (interrupts l x)).RBIE = c ∨ (leave_search (interrupts l x)).RBIE = 0) ∧
    (x.RBIE = 1 ∨ 10 < x.signal_pulses →
      (leave_search (interrupts l x)).RBIE = 1 ∨
        10 < (leave_search (interrupts l x)).signal_pulses) ∧
    (l = [] → (leave_search (interrupts l x)).RBIE = x.RBIE) := by
  obtain ⟨m1, -, m3, -, m5, -, -, -, m9⟩ := interrupts_frame l x
  obtain ⟨⟨n1, -, n3, -, n5, -, -, -, n9⟩, nr, np, -⟩ := leave_search_fields (interrupts l x)
  refine ⟨n1.trans m1, n3.trans m3, n5.trans m5, n9.trans m9, ?_, ?_, ?_⟩
  · intro c hc
    rw [nr]
    exact interrupts_inv (fun t => t.RBIE = c ∨ t.RBIE = 0) (service_RBIE c) l x hc
  · intro hx
    rw [nr, np]
    exact interrupts_inv (fun t => t.RBIE = 1 ∨ 10 < t.signal_pulses) service_window l x hx
  · intro hl
    rw [nr, hl]
    rfl

lemma search_input_audio (lock : Bool) (irq bt : List Interrupt) (s t : Firmware)
    (h : search_input lock irq bt s = some t) :
    (t.signal_autosearch = s.signal_autosearch ∧ t.I2S_RELAY = s.I2S_RELAY) ∨
      t.signal_autosearch = 0 := by
  rcases search_input_some lock irq bt s t h with ⟨-, s2, r, hw, rfl⟩ | ⟨-, rfl⟩
  · obtain ⟨⟨-, -, f3, -, f5, -⟩, -⟩ := delayMs_loop_frame 10 irq _ s2 r hw
    obtain ⟨-, -, g3, -, g5, -⟩ := interrupts_frame bt s2
    simp only [enable_pulse_count] at f3 f5
    by_cases hp : (interrupts bt s2).signal_pulses > 10
    · rw [confirm_or_next_pos _ hp]
      exact Or.inr rfl
    · rw [confirm_or_next_neg _ hp]
      exact Or.inl ⟨by rw [next_input_signal_autosearch, g3, f3],
        by rw [next_input_I2S_RELAY, g5, f5]⟩
  · exact Or.inl ⟨next_input_signal_autosearch s, next_input_I2S_RELAY s⟩

lemma main_step_audio (e : Env) (s t : Firmware) (h : main_step e s = some t) :
    (t.signal_autosearch = s.signal_autosearch ∧ t.I2S_RELAY = s.I2S_RELAY) ∨
      t.signal_autosearch = 0 ∨ t.I2S_RELAY = 0 := by
  obtain ⟨-, -, f3, -, f5, -⟩ := interrupts_frame e.early s
  unfold main_step at h
  split_ifs at h
  · right; left
    unfold case_INIT at h
    dsimp only at h
    split at h
    · simp at h
    · rename_i s1 rest hi
      obtain ⟨-, -, -, -, -, i6, -⟩ := init_relay _ _ _ _ hi
      simp only [Option.some.injEq] at h
      subst h
      exact i6
  · left
    unfold case_SET_RELAY at h
    dsimp only at h
    split_ifs at h <;> simp only [Option.some.injEq] at h <;> subst h
    · exact ⟨by simp only [NEXT_STATE, set_relay_signal_autosearch, f3],
        by simp only [NEXT_STATE, set_relay_I2S_RELAY, f5]⟩
    · exact ⟨by rw [set_relay_signal_autosearch, f3], by rw [set_relay_I2S_RELAY, f5]⟩
  · by_cases ha : (interrupts e.early s).signal_autosearch = 0
    · rw [case_AUTO_SEARCH_unarmed e s ha] at h
      split_ifs at h <;> simp only [Option.some.injEq] at h <;> subst h
      · exact Or.inl ⟨f3, f5⟩
      · exact Or.inl ⟨f3, f5⟩
    · obtain ⟨s1, rest, s2, hw, hq, rfl⟩ := case_AUTO_SEARCH_some e s t ha h
      obtain ⟨⟨-, -, g3, -, g5, -⟩, -⟩ := delayMs_loop_frame 100 e.irq _ s1 rest hw
      simp only at g3 g5
      have k := search_input_audio _ _ _ _ _ hq
      obtain ⟨-, a2, a3, -⟩ := after_test_fields e.after_test s2
      rw [a2, a3]
      rcases k with ⟨k1, k2⟩ | k
      · exact Or.inl ⟨k1.trans (g3.trans f3), k2.trans (g5.trans f5)⟩
      · exact Or.inr (Or.inl k)
  · unfold case_BUTTON_PRESS at h
    dsimp only at h
    split_ifs at h with hbtn
    · split at h
      · simp at h
      · rename_i s2 temp rest hw
        obtain ⟨⟨-, -, -, -, g5, -⟩, -⟩ := button_loop_frame _ _ _ _ _ _ _ hw
        simp only at g5
        split_ifs at h <;> simp only [Option.some.injEq] at h <;> subst h
        · exact Or.inr (Or.inl rfl)
        · right; right
          have : (enable_autosearch s2).I2S_RELAY = s2.I2S_RELAY := by
            unfold enable_autosearch next_input
            dsimp only
            split_ifs <;> rfl
          rw [this, g5]
    · simp only [Option.some.injEq] at h
      subst h
      exact Or.inl ⟨f3, f5⟩
  · unfold case_default at h
    simp only [Option.some.injEq] at h
    subst h
    exact Or.inl ⟨f3, f5⟩

set_option maxRecDepth 100000 in
lemma main_step_long_press : main_step (press 120) pressed_2 = some after_long_press := by
  decide

lemma reachable_after_long_press : Reachable 2 after_long_press :=
  Reachable.main _ _ _ (Reachable.isr button_irq booted_2 reachable_booted_2)
    main_step_long_press

/-- C14: in every state the firmware reaches at a boundary of the main loop
(between two iterations, interrupt requests serviced there included), whatever
the EEPROM cell held at reset, `signal_autosearch ≠ 0` implies
`I2S_RELAY = 0`. -/
theorem C14_armed_implies_muted (p : Nat) (s : Firmware) (h : Reachable p s)
    (harm : s.signal_autosearch ≠ 0) : s.I2S_RELAY = 0 := by
  induction h with
  | power_on => exact absurd rfl harm
  | main e s s1 _ hstep ih =>
    rcases main_step_audio e s s1 hstep with ⟨k1, k2⟩ | k | k
    · rw [k2]
      exact ih (by rw [← k1]; exact harm)
    · exact absurd k harm
    · exact k
  | isr i s _ ih =>
    obtain ⟨-, -, f3, -, f5, -⟩ := service_frame i s
    rw [f5]
    exact ih (by rw [← f3]; exact harm)

/-- C14, witness: the state after a long press, armed and muted. -/
theorem C14_armed_implies_muted_witness :
    Reachable 2 after_long_press ∧ after_long_press.signal_autosearch ≠ 0 ∧
      after_long_press.I2S_RELAY = 0 :=
  ⟨reachable_after_long_press, by decide,
    C14_armed_implies_muted 2 after_long_press reachable_after_long_press (by decide)⟩

/-! ## C15: when the EEPROM cell is written -/

lemma case_SET_RELAY_eeprom (e : Env) (s t : Firmware) (h : case_SET_RELAY e s = some t) :
    t.active_relay = s.active_relay ∧ t.non_volatile_active_relay = s.active_relay ∧
    t.eeprom_writes =
      s.eeprom_writes + (if s.active_relay ≠ s.non_volatile_active_relay then 1 else 0) := by
  obtain ⟨f1, f2, -, -, -, -, f7, -⟩ := interrupts_frame e.early s
  unfold case_SET_RELAY at h
  dsimp only at h
  have key : (set_relay (interrupts e.early s).active_relay (interrupts e.early s)).eeprom_writes
      = s.eeprom_writes + (if s.active_relay ≠ s.non_volatile_active_relay then 1 else 0) := by
    by_cases hc : (interrupts e.early s).active_relay =
        (interrupts e.early s).non_volatile_active_relay
    · rw [set_relay_same _ _ hc, f7]
      rw [f1, f2] at hc
      rw [if_neg (by simpa using hc)]
      rfl
    · rw [(set_relay_write _ _ hc).2.2.2.1, f7]
      rw [f1, f2] at hc
      rw [if_pos hc]
  split_ifs at h <;> simp only [Option.some.injEq] at h <;> subst h
  · exact ⟨by simp only [NEXT_STATE, set_relay_active_relay, f1],
      by simp only [NEXT_STATE, set_relay_nv, f1], key⟩
  · exact ⟨by rw [set_relay_active_relay, f1], by rw [set_relay_nv, f1], key⟩

lemma main_step_eeprom (e : Env) (s t : Firmware) (h : main_step e s = some t) :
    (s.state = STATE_SET_RELAY ∧ s.active_relay ≠ s.non_volatile_active_relay ∧
      t.eeprom_writes = s.eeprom_writes + 1 ∧
      t.non_volatile_active_relay = s.active_relay ∧ t.active_relay = s.active_relay) ∨
    (¬ (s.state = STATE_SET_RELAY ∧ s.active_relay ≠ s.non_volatile_active_relay) ∧
      t.eeprom_writes = s.eeprom_writes ∧
      t.non_volatile_active_relay = s.non_volatile_active_relay) := by
  unfold main_step at h
  split_ifs at h with c0 c1 c2 c3
  · obtain ⟨k1, -, -, k4⟩ := case_INIT_relay e s t h
    exact Or.inr ⟨fun hc => by rw [c0] at hc; exact absurd hc.1 (by decide), k4, k1⟩
  · obtain ⟨k1, k2, k3⟩ := case_SET_RELAY_eeprom e s t h
    by_cases hc : s.active_relay = s.non_volatile_active_relay
    · right
      rw [if_neg (by simpa using hc)] at k3
      exact ⟨fun hh => hh.2 hc, k3, k2.trans hc⟩
    · left
      rw [if_pos hc] at k3
      exact ⟨c1, hc, k3, k2, k1⟩
  · obtain ⟨k1, -, -, k4⟩ := case_AUTO_SEARCH_relay e s t h
    exact Or.inr ⟨fun hc => c1 hc.1, k4, k1⟩
  · obtain ⟨k1, -, -, k4⟩ := case_BUTTON_PRESS_relay e s t h
    exact Or.inr ⟨fun hc => c1 hc.1, k4, k1⟩
  · obtain ⟨k1, -, -, k4⟩ := case_default_relay e s t h
    exact Or.inr ⟨fun hc => c1 hc.1, k4, k1⟩

lemma reachable_pressed_2 : Reachable 2 pressed_2 :=
  Reachable.isr button_irq booted_2 reachable_booted_2

set_option maxRecDepth 100000 in
lemma main_step_short_press : main_step (press 50) pressed_2 = some after_short_press := by
  decide

lemma main_step_after_short_press :
    main_step (quiet []) after_short_press = some selecting_3 := by
  decide

lemma main_step_selecting_3 : main_step (quiet []) selecting_3 = some stored_3 := by
  decide

lemma reachable_selecting_3 : Reachable 2 selecting_3 :=
  Reachable.main _ _ _ (Reachable.main _ _ _ reachable_pressed_2 main_step_short_press)
    main_step_after_short_press

/-- C15 (as amended): an iteration of the main loop writes
`non_volatile_active_relay` exactly when it is the `STATE_SET_RELAY` iteration
and `active_relay` differs from the EEPROM copy on entry; that iteration
performs one write, stores `active_relay` and leaves `active_relay` unchanged;
every other iteration leaves the EEPROM cell as it was. -/
theorem C15_eeprom_write_step (e : Env) (s t : Firmware) (h : main_step e s = some t) :
    (t.eeprom_writes ≠ s.eeprom_writes ↔
      (s.state = STATE_SET_RELAY ∧ s.active_relay ≠ s.non_volatile_active_relay)) ∧
    (t.eeprom_writes ≠ s.eeprom_writes →
      t.eeprom_writes = s.eeprom_writes + 1 ∧
      t.non_volatile_active_relay = s.active_relay ∧ t.active_relay = s.active_relay) ∧
    (t.eeprom_writes = s.eeprom_writes →
      t.non_volatile_active_relay = s.non_volatile_active_relay) := by
  rcases main_step_eeprom e s t h with ⟨k1, k2, k3, k4, k5⟩ | ⟨k1, k2, k3⟩
  · refine ⟨⟨fun _ => ⟨k1, k2⟩, fun _ => by omega⟩, fun _ => ⟨k3, k4, k5⟩, fun hh => ?_⟩
    omega
  · exact ⟨⟨fun hh => absurd k2 hh, fun hh => absurd hh k1⟩, fun hh => absurd k2 hh,
      fun _ => k3⟩

/-- C15, witness: the `STATE_SET_RELAY` iteration that follows a short press
stores the new input 3. -/
theorem C15_eeprom_write_step_witness :
    main_step (quiet []) selecting_3 = some stored_3 ∧
    (stored_3.eeprom_writes ≠ selecting_3.eeprom_writes ↔
      (selecting_3.state = STATE_SET_RELAY ∧
        selecting_3.active_relay ≠ selecting_3.non_volatile_active_relay)) ∧
    (stored_3.eeprom_writes ≠ selecting_3.eeprom_writes →
      stored_3.eeprom_writes = selecting_3.eeprom_writes + 1 ∧
      stored_3.non_volatile_active_relay = selecting_3.active_relay ∧
      stored_3.active_relay = selecting_3.active_relay) ∧
    (stored_3.eeprom_writes = selecting_3.eeprom_writes →
      stored_3.non_volatile_active_relay = selecting_3.non_volatile_active_relay) :=
  ⟨main_step_selecting_3,
    C15_eeprom_write_step (quiet []) selecting_3 stored_3 main_step_selecting_3⟩

/-- C15, counterexample to the claim as stated, in two reachable states: the
short press in `pressed_2` changes `active_relay` from 2 to 3 and writes
nothing to the EEPROM cell; the `STATE_SET_RELAY` iteration in `selecting_3`
writes the EEPROM cell and leaves `active_relay` at 3. -/
theorem C15_write_and_change_in_different_steps :
    (Reachable 2 pressed_2 ∧ main_step (press 50) pressed_2 = some after_short_press ∧
      after_short_press.active_relay ≠ pressed_2.active_relay ∧
      after_short_press.eeprom_writes = pressed_2.eeprom_writes ∧
      after_short_press.non_volatile_active_relay = pressed_2.non_volatile_active_relay) ∧
    (Reachable 2 selecting_3 ∧ main_step (quiet []) selecting_3 = some stored_3 ∧
      stored_3.eeprom_writes = selecting_3.eeprom_writes + 1 ∧
      stored_3.active_relay = selecting_3.active_relay) :=
  ⟨⟨reachable_pressed_2, main_step_short_press, by decide, by decide, by decide⟩,
    ⟨reachable_selecting_3, main_step_selecting_3, by decide, by decide⟩⟩

/-! ## C16: the millisecond clock -/

/-- C16 (as amended): the timer branch of the interrupt routine (add 1 while
`milliseconds` is below `ULONG_MAX`, otherwise store 0) is the increment modulo
`2 ^ 32`: for every 32-bit value `m` of `milliseconds` the value after one tick is
`(m + 1) mod 2 ^ 32`; it is `m + 1` below `ULONG_MAX` and 0 at `ULONG_MAX`. -/
theorem C16_clock_tick (i : Interrupt) (s : Firmware) (hi : i.T0IF = true)
    (hm : s.milliseconds ≤ ULONG_MAX) :
    (ISR i s).milliseconds = (s.milliseconds + 1) % 2 ^ 32 ∧
    (s.milliseconds < ULONG_MAX → (ISR i s).milliseconds = s.milliseconds + 1) ∧
    (s.milliseconds = ULONG_MAX → (ISR i s).milliseconds = 0) := by
  rw [ISR_milliseconds, if_pos hi]
  simp only [ULONG_MAX] at *
  refine ⟨?_, ?_, ?_⟩
  · split_ifs <;> omega
  · intro h; rw [if_pos h]
  · intro h; rw [if_neg (by omega)]

/-- C16, witness: one tick with the clock at `ULONG_MAX` gives 0, which is
`(ULONG_MAX + 1) mod 2 ^ 32`. -/
theorem C16_clock_tick_witness :
    (ISR tick clock_at_max).milliseconds = (clock_at_max.milliseconds + 1) % 2 ^ 32 ∧
    (ISR tick clock_at_max).milliseconds = 0 :=
  ⟨(C16_clock_tick tick clock_at_max rfl (by decide)).1,
    (C16_clock_tick tick clock_at_max rfl (by decide)).2.2 rfl⟩

/-- C16, refutation of the claim as stated: there is no 32-bit clock value at
which the value after one tick differs from `(m + 1) mod 2 ^ 32`. -/
theorem C16_no_value_differs_from_modular :
    ¬ ∃ (m : Nat) (i : Interrupt) (s : Firmware), m ≤ ULONG_MAX ∧ i.T0IF = true ∧
      s.milliseconds = m ∧ (ISR i s).milliseconds ≠ (m + 1) % 2 ^ 32 := by
  rintro ⟨m, i, s, hm, hi, hs, hne⟩
  apply hne
  rw [ISR_milliseconds, if_pos hi, hs]
  simp only [ULONG_MAX] at *
  split_ifs <;> omega

/-! ## C17: unrecognised values of `state` -/

/-- C17: for every value of `state` from 4 to 255, an iteration of the main loop
assigns `STATE_SET_RELAY` to `state` and writes nothing else: its result is the
state left by the interrupt requests serviced meanwhile, with `state`
replaced; when no request is serviced during the iteration only `state`
differs from the state before, and in any case every variable and output the
interrupt routine does not write is unchanged. -/
theorem C17_default_case (e : Env) (s : Firmware) (h4 : 4 ≤ s.state) (_h255 : s.state ≤ 255) :
    main_step e s = some { interrupts e.early s with state := STATE_SET_RELAY } ∧
    (e.early = [] → main_step e s = some { s with state := STATE_SET_RELAY }) ∧
    (∃ t, main_step e s = some t ∧ t.state = STATE_SET_RELAY ∧ Frame s t) := by
  have h := main_step_default e s h4
  have hc : case_default e s = some { interrupts e.early s with state := STATE_SET_RELAY } :=
    rfl
  refine ⟨h.trans hc, ?_, ⟨_, h.trans hc, rfl, interrupts_frame e.early s⟩⟩
  intro he
  rw [h, hc, he]
  rfl

/-- C17, witness: `state = 200`. -/
theorem C17_default_case_witness :
    main_step (quiet []) lost_2 = some { lost_2 with state := STATE_SET_RELAY } :=
  (C17_default_case (quiet []) lost_2 (by decide) (by decide)).2.1 rfl

/-! ## C18: the pulse counter -/

lemma service_pulses_le (i : Interrupt) (s : Firmware) (h : s.signal_pulses ≤ 11) :
    (service i s).signal_pulses ≤ 11 := by
  unfold service
  split_ifs
  · rw [ISR_signal_pulses]
    split_ifs <;> omega
  · exact h

/-- C18: after `enable_pulse_count`, whatever interrupt requests are serviced
(any flags, any level of `RB4`, any content of `i2s_state`), `signal_pulses` is
at most 11, also in the state in which the auto search tests the count.  A
port B change request whose level differs from `i2s_state` adds 1 to
`signal_pulses` and leaves `RBIE` alone while the count is at most 10, and
leaves the count alone and clears `RBIE` once it exceeds 10; a request without
a level change, or without the port B flag, changes neither. -/
theorem C18_pulse_count_bounded :
    (∀ (irq : List Interrupt) (s : Firmware),
      (interrupts irq (enable_pulse_count s)).signal_pulses ≤ 11) ∧
    (∀ (e : Env) (s s2 : Firmware), sample_window e s = some s2 → s2.signal_pulses ≤ 11) ∧
    (∀ (i : Interrupt) (s : Firmware), i.RBIF = true → i.I2S_DATA ≠ i.i2s_state →
      s.signal_pulses ≤ 10 →
      (ISR i s).signal_pulses = s.signal_pulses + 1 ∧ (ISR i s).RBIE = s.RBIE) ∧
    (∀ (i : Interrupt) (s : Firmware), i.RBIF = true → i.I2S_DATA ≠ i.i2s_state →
      10 < s.signal_pulses →
      (ISR i s).signal_pulses = s.signal_pulses ∧ (ISR i s).RBIE = 0) ∧
    (∀ (i : Interrupt) (s : Firmware), (i.RBIF = false ∨ i.I2S_DATA = i.i2s_state) →
      (ISR i s).signal_pulses = s.signal_pulses ∧ (ISR i s).RBIE = s.RBIE) := by
  refine ⟨?_, ?_, ?_, ?_, ?_⟩
  · intro irq s
    exact interrupts_inv (fun t => t.signal_pulses ≤ 11) service_pulses_le irq _
      (by simp [enable_pulse_count])
  · intro e s s2 h
    unfold sample_window at h
    split at h
    · simp at h
    · rename_i s1 rest hw
      split at h
      · simp at h
      · rename_i s3 rest2 hw2
        simp only [Option.some.injEq] at h
        subst h
        exact interrupts_inv (fun t => t.signal_pulses ≤ 11) service_pulses_le e.before_test s3
          (delayMs_loop_inv (fun t => t.signal_pulses ≤ 11) service_pulses_le 10 rest _ s3
            rest2 hw2 (by simp [enable_pulse_count]))
  · intro i s h1 h2 h3
    have h2b : (i.I2S_DATA != i.i2s_state) = true := by simpa using h2
    rw [ISR_signal_pulses, ISR_RBIE, if_pos h1, if_pos h2b, if_pos h1, if_pos h2b,
      if_neg (by omega), if_neg (by omega)]
    exact ⟨rfl, rfl⟩
  · intro i s h1 h2 h3
    have h2b : (i.I2S_DATA != i.i2s_state) = true := by simpa using h2
    rw [ISR_signal_pulses, ISR_RBIE, if_pos h1, if_pos h2b, if_pos h1, if_pos h2b,
      if_pos h3, if_pos h3]
    exact ⟨rfl, rfl⟩
  · intro i s h
    rw [ISR_signal_pulses, ISR_RBIE]
    rcases h with h | h
    · rw [if_neg (by simp [h]), if_neg (by simp [h])]
      exact ⟨rfl, rfl⟩
    · have h2b : ¬ (i.I2S_DATA != i.i2s_state) = true := by simp [h]
      split_ifs <;> exact ⟨rfl, rfl⟩

/-- C18, witness: 15 level changes after `enable_pulse_count`, and the eleventh
and twelfth of them. -/
theorem C18_pulse_count_bounded_witness :
    (interrupts (List.replicate 15 edge) (enable_pulse_count searching_2)).signal_pulses ≤ 11 ∧
    ((ISR edge { searching_2 with signal_pulses := 10 }).signal_pulses = 10 + 1 ∧
      (ISR edge { searching_2 with signal_pulses := 10 }).RBIE = searching_2.RBIE) ∧
    ((ISR edge { searching_2 with signal_pulses := 11, RBIE := 1 }).signal_pulses = 11 ∧
      (ISR edge { searching_2 with signal_pulses := 11, RBIE := 1 }).RBIE = 0) :=
  ⟨C18_pulse_count_bounded.1 (List.replicate 15 edge) searching_2,
    C18_pulse_count_bounded.2.2.1 edge { searching_2 with signal_pulses := 10 } rfl
      (by decide) (by decide),
    C18_pulse_count_bounded.2.2.2.1 edge { searching_2 with signal_pulses := 11, RBIE := 1 }
      rfl (by decide) (by decide)⟩

/-! ## C19: the edge interrupt at the end of the window -/

set_option maxRecDepth 100000 in
/-- Level changes serviced after the test of the pulse count clear `RBIE` once
the count has passed 10, also when the search moved on. -/
lemma main_step_late_edges :
    main_step locked_late_edges searching_2 = some after_late_edges := by
  decide

lemma relay_pattern_inj (a b : Nat) (ha : a ≤ 4) (hb : b ≤ 4)
    (h : relay_pattern a = relay_pattern b) : a = b := by
  have key : ∀ x, x < 5 → ∀ y, y < 5 → relay_pattern x = relay_pattern y → x = y := by
    decide
  exact key a (by omega) b (by omega) h

lemma main_step_routed (e : Env) (s t : Firmware) (h : main_step e s = some t)
    (hr : s.state = STATE_INIT ∨ s.RELAYS = relay_pattern s.non_volatile_active_relay) :
    t.RELAYS = relay_pattern t.non_volatile_active_relay := by
  have frame : ∀ {u : Firmware}, RelayFrame s u → s.state ≠ STATE_INIT →
      u.RELAYS = relay_pattern u.non_volatile_active_relay := by
    intro u hu hne
    rcases hr with hr | hr
    · exact absurd hr hne
    · rw [hu.1, hu.2.1]; exact hr
  unfold main_step at h
  split_ifs at h with c0 c1 c2 c3
  · obtain ⟨k1, k2, -, -⟩ := case_INIT_relay e s t h
    rw [k1, k2]
  · rcases case_SET_RELAY_relay e s t h with k | ⟨-, k1, k2, -, -⟩
    · exact frame k c0
    · rw [k1, k2]
  · exact frame (case_AUTO_SEARCH_relay e s t h) c0
  · exact frame (case_BUTTON_PRESS_relay e s t h) c0
  · exact frame (case_default_relay e s t h) c0

lemma reachable_routed (p : Nat) (s : Firmware) (h : Reachable p s) :
    s = power_on p ∨ s.RELAYS = relay_pattern s.non_volatile_active_relay := by
  induction h with
  | power_on => exact Or.inl rfl
  | main e s s1 _ hstep ih =>
    right
    apply main_step_routed e s s1 hstep
    rcases ih with ih | ih
    · left; rw [ih]; rfl
    · exact Or.inr ih
  | isr i s _ ih =>
    rcases ih with ih | ih
    · left
      subst ih
      unfold service
      simp [power_on]
    · right
      obtain ⟨-, f2, -, f4, -⟩ := service_frame i s
      rw [f2, f4]
      exact ih

lemma reachable_nv_le (p : Nat) (hp : p ≤ 4) (s : Firmware) (h : Reachable p s) :
    s.non_volatile_active_relay ≤ 4 := by
  induction h with
  | power_on => exact hp
  | main e s s1 hreach hstep ih =>
    rcases main_step_eeprom e s s1 hstep with ⟨k1, -, -, k4, -⟩ | ⟨-, -, k3⟩
    · rw [k4]
      rcases reachable_booted p hp s hreach with hb | hb
      · rw [hb] at k1
        have hk : (0 : Nat) = 1 := k1
        omega
      · exact hb.2.2.1
    · rw [k3]; exact ih
  | isr i s _ ih =>
    rw [(service_frame i s).2.1]
    exact ih

/-- C20: in every state reached after the `STATE_INIT` iteration (every
reachable state other than the reset state) the relay port holds the pattern
of the EEPROM copy, `RELAYS = 0xFF xor (1 << non_volatile_active_relay)`; with
an input index in the EEPROM cell at reset, the EEPROM copy is an input index,
its relay line is the one active line, and for every index `nr` the test
`nr != non_volatile_active_relay` of `set_relay` holds exactly when the port
does not hold the pattern of `nr`; and every `STATE_SET_RELAY` iteration ends
with `non_volatile_active_relay = active_relay`. -/
theorem C20_relays_follow_eeprom (p : Nat) (s : Firmware) (h : Reachable p s)
    (hs : s ≠ power_on p) :
    s.RELAYS = relay_pattern s.non_volatile_active_relay ∧
    s.RELAYS = 0b11111111 ^^^ ((1 <<< s.non_volatile_active_relay) % 256) ∧
    (p ≤ 4 →
      s.non_volatile_active_relay ≤ 4 ∧
      (∀ k, k < 5 → (relay_active s.RELAYS k = true ↔ k = s.non_volatile_active_relay)) ∧
      (∀ nr, nr ≤ 4 →
        (nr ≠ s.non_volatile_active_relay ↔ s.RELAYS ≠ relay_pattern nr))) ∧
    (s.state = STATE_SET_RELAY → ∀ e : Env, ∃ t, main_step e s = some t ∧
      t.non_volatile_active_relay = t.active_relay) := by
  have hr : s.RELAYS = relay_pattern s.non_volatile_active_relay := by
    rcases reachable_routed p s h with k | k
    · exact absurd k hs
    · exact k
  refine ⟨hr, hr, ?_, ?_⟩
  · intro hp
    have hnv := reachable_nv_le p hp s h
    refine ⟨hnv, ?_, ?_⟩
    · intro k hk
      rw [hr]
      exact (relay_pattern_lines _ hnv k hk).1
    · intro nr hnr
      rw [hr]
      constructor
      · intro hne hpat
        exact hne (relay_pattern_inj _ _ hnr hnv hpat.symm)
      · intro hne heq
        exact hne (by rw [heq])
  · intro hst e
    rw [main_step_SET_RELAY e s hst]
    have hsome : ∃ t, case_SET_RELAY e s = some t := by
      unfold case_SET_RELAY
      dsimp only
      split_ifs
      · exact ⟨_, rfl⟩
      · exact ⟨_, rfl⟩
    obtain ⟨t, ht⟩ := hsome
    obtain ⟨k1, k2, -⟩ := case_SET_RELAY_eeprom e s t ht
    exact ⟨t, ht, k2.trans k1.symm⟩

/-- C20, witness: the reachable state `selecting_3`, where input 3 is active and
the EEPROM cell and the relay port still show input 2. -/
theorem C20_relays_follow_eeprom_witness :
    selecting_3.RELAYS = 0b11111111 ^^^ ((1 <<< selecting_3.non_volatile_active_relay) % 256) ∧
    (3 ≠ selecting_3.non_volatile_active_relay ↔ selecting_3.RELAYS ≠ relay_pattern 3) ∧
    (∃ t, main_step (quiet []) selecting_3 = some t ∧
      t.non_volatile_active_relay = t.active_relay) :=
  have h := C20_relays_follow_eeprom 2 selecting_3 reachable_selecting_3 (by decide)
  ⟨h.2.1, (h.2.2.1 (by decide)).2.2 3 (by decide), h.2.2.2 rfl (quiet [])⟩

end SpdifSelector
